import Mathlib

/-!
Verification of the browser-tools element-resolution scripts
(`scripts/element.js` and `scripts/config.js`).

The DOM is modelled as a tree of element and text nodes; an element is
addressed by its path of element-child indices from the document root
(`parent.children` in the DOM is the list of element children, which is
what the source walks).  Pure in-page helpers (selector synthesis, text
matching) are translated directly from the source; browser primitives
(the CSS engine behind `page.$`, `getBoundingClientRect` after a scroll,
click failures) are oracles supplied as parameters.  Strings are handled
through their character lists so that every definition reduces in the
kernel.  JavaScript machine numbers appear only as finite integers, NaN
and infinities; fractional values are outside the behaviour any claim
touches and are mapped to NaN by the string-to-number model.
-/

deriving instance DecidableEq for Except

/-- Viewport rectangle of an element, integer pixels (the source rounds
with `Math.round`; rectangles are modelled at integer granularity). -/
structure Rect where
  x : Int
  y : Int
  width : Int
  height : Int
deriving DecidableEq, Repr

/-- Static data of a DOM element: `nodeName` (as compared raw by the
source), `id`, class list, attributes, pre-scroll bounding rectangle and
the `offsetParent`-derived visibility bit. -/
structure ElemData where
  nodeName : String
  id : String
  classes : List String
  attrs : List (String × String)
  rect : Rect
  hasOffsetParent : Bool
deriving DecidableEq, Repr

/-- A DOM node: an element with its full child list (elements and text
nodes interleaved, in document order) or a text node. -/
inductive DNode where
  | elem : ElemData → List DNode → DNode
  | text : String → DNode

/-- Whether a node is an element node (`nodeType === 1`). -/
def DNode.isElem : DNode → Bool
  | .elem _ _ => true
  | .text _ => false

/-- All children of a node, elements and text nodes alike. -/
def DNode.childrenAll : DNode → List DNode
  | .elem _ cs => cs
  | .text _ => []

/-- Element children of a node, i.e. the DOM `children` collection. -/
def DNode.echildren (n : DNode) : List DNode :=
  n.childrenAll.filter DNode.isElem

/-- The `nodeName` of a node (junk value `""` on text nodes, which never
sit at a valid element path). -/
def DNode.nameOf : DNode → String
  | .elem d _ => d.nodeName
  | .text _ => ""

/-- The `id` attribute of a node (`""` when absent, as in the DOM). -/
def DNode.idOf : DNode → String
  | .elem d _ => d.id
  | .text _ => ""

/-- The class list of a node. -/
def DNode.classesOf : DNode → List String
  | .elem d _ => d.classes
  | .text _ => []

/-- The element data of a node (junk on text nodes). -/
def DNode.dataOf : DNode → ElemData
  | .elem d _ => d
  | .text _ => ⟨"", "", [], [], ⟨0, 0, 0, 0⟩, false⟩

/-- Element at a path of element-child indices, when the path is valid. -/
def nodeAt (root : DNode) : List Nat → Option DNode
  | [] => some root
  | i :: p =>
    match (DNode.echildren root).get? i with
    | some c => nodeAt c p
    | none => none

/-- Paths of all element nodes below (and including) a node, in document
order (pre-order: a node precedes its subtree, siblings left to right),
with explicit fuel so the definition is structurally recursive and
reduces in the kernel. -/
def nodePathsF : Nat → DNode → List (List Nat)
  | 0, _ => []
  | _ + 1, .text _ => []
  | fuel + 1, .elem d cs =>
    let kids := (DNode.elem d cs).echildren
    [] :: (List.range kids.length).flatMap fun i =>
      match kids.get? i with
      | some c => (nodePathsF fuel c).map (i :: ·)
      | none => []

/-- Whether `fuel` strictly bounds the height of the node tree (text
nodes included), so that fuel-based traversals are exhaustive. -/
def depthLe : Nat → DNode → Bool
  | 0, _ => false
  | _ + 1, .text _ => true
  | fuel + 1, .elem _ cs => cs.all fun c => depthLe fuel c

/-- A document: a tree rooted at an element node, packaged with a bound
on its height so that traversals can be written with structural fuel. -/
structure Document where
  root : DNode
  depth : Nat
  rootElem : root.isElem = true
  bounded : depthLe depth root = true

/-- Paths of all element nodes of the document, in document order. -/
def nodePaths (doc : Document) : List (List Nat) :=
  nodePathsF doc.depth doc.root

/-- Characters the fallback escaper leaves untouched: the regex class
`[a-zA-Z0-9_-]` of `escapeIdent` in the source. -/
def plainIdentChar (c : Char) : Bool :=
  (('a' ≤ c) && (c ≤ 'z')) || (('A' ≤ c) && (c ≤ 'Z')) ||
    (('0' ≤ c) && (c ≤ '9')) || (c = '_') || (c = '-')

/-- Character-list form of the fallback `escapeIdent`: every character
outside `[a-zA-Z0-9_-]` gets a backslash prepended. -/
def escapeChars : List Char → List Char
  | [] => []
  | c :: cs =>
    if plainIdentChar c then c :: escapeChars cs
    else '\\' :: c :: escapeChars cs

/-- The fallback identifier escaper of the source (the branch taken when
`window.CSS.escape` is unavailable):
`value.replace(/[^a-zA-Z0-9_-]/g, (char) => "\\" + char)`. -/
def escapeIdent (s : String) : String :=
  ⟨escapeChars s.data⟩

/-- CSS unescaping of an identifier: a backslash makes the following
character literal.  This is the reading a CSS parser gives the escaped
identifiers the fallback escaper produces. -/
def cssUnescapeChars : List Char → List Char
  | [] => []
  | c :: cs =>
    if c = '\\' then
      match cs with
      | [] => []
      | d :: ds => d :: cssUnescapeChars ds
    else c :: cssUnescapeChars cs

/-- String form of `cssUnescapeChars`. -/
def cssUnescape (s : String) : String :=
  ⟨cssUnescapeChars s.data⟩

/-- ASCII lower-casing of a string, the model of
`String.prototype.toLowerCase` as applied to tag names. -/
def lowerStr (s : String) : String :=
  ⟨s.data.map Char.toLower⟩

/-- One segment of a synthesized selector: an id anchor `#id`, or a tag
segment `tag.cls1.cls2:nth-of-type(n)` (classes possibly empty, ordinal
possibly absent).  Identifier payloads are kept unescaped; rendering
applies `escapeIdent`. -/
inductive SelSeg where
  | idSeg : String → SelSeg
  | tagSeg : String → List String → Option Nat → SelSeg
deriving DecidableEq, Repr

/-- Renders one segment exactly as the source builds `part`. -/
def renderSeg : SelSeg → String
  | .idSeg i => "#" ++ escapeIdent i
  | .tagSeg t cls nth =>
    t ++ (if cls.isEmpty then "" else "." ++ String.intercalate "." (cls.map escapeIdent))
      ++ (match nth with
          | none => ""
          | some n => ":nth-of-type(" ++ toString n ++ ")")

/-- Number of children of tag `t` in a child list: the length of
`Array.from(parent.children).filter((child) => child.nodeName === tag)`. -/
def countTag (cs : List DNode) (t : String) : Nat :=
  (cs.filter (fun c => c.nameOf == t)).length

/-- The `toSelector` ancestor walk of the source, on segments.  The
first list argument is the reversed path of the current node (deepest
step first), so the recursion ascends exactly as the `while` loop does:
emit `#id` and stop at the first id-bearing node, otherwise emit the
lower-cased tag with classes and, when the parent has more than one
child of the same tag, the 1-based ordinal among same-tag siblings
(`siblings.indexOf(current) + 1`, positionally: the count of same-tag
siblings strictly before the current index, plus one). -/
def selWalk (root : DNode) : List Nat → List SelSeg → List SelSeg
  | [], parts =>
    (if root.idOf ≠ "" then SelSeg.idSeg root.idOf
     else SelSeg.tagSeg (lowerStr root.nameOf) root.classesOf none) :: parts
  | i :: rest, parts =>
    match nodeAt root (rest.reverse ++ [i]), nodeAt root rest.reverse with
    | some cur, some par =>
      if cur.idOf ≠ "" then SelSeg.idSeg cur.idOf :: parts
      else
        let sibs := par.echildren.filter (fun c => c.nameOf == cur.nameOf)
        let nth := if sibs.length > 1
          then some (countTag (par.echildren.take i) cur.nameOf + 1) else none
        selWalk root rest (SelSeg.tagSeg (lowerStr cur.nameOf) cur.classesOf nth :: parts)
    | _, _ => parts

/-- Selector synthesized for the node at path `p`, as segments. -/
def toSelectorSegs (root : DNode) (p : List Nat) : List SelSeg :=
  selWalk root p.reverse []

/-- Selector synthesized for the node at path `p`, as the string the
source returns: segments rendered and joined with the child combinator. -/
def toSelector (root : DNode) (p : List Nat) : String :=
  String.intercalate " > " ((toSelectorSegs root p).map renderSeg)

/-- The ordinal clause of a declarative segment: for a non-root node,
the 1-based position among same-tag element siblings, present exactly
when the parent has more than one element child of the same tag. -/
def nthFor (root : DNode) (q : List Nat) (cur : DNode) : Option Nat :=
  match q.getLast? with
  | none => none
  | some i =>
    match nodeAt root q.dropLast with
    | some par =>
      if (par.echildren.filter (fun c => c.nameOf == cur.nameOf)).length > 1
      then some (countTag (par.echildren.take i) cur.nameOf + 1) else none
    | none => none

/-- Declarative segment for the node at path `q`, as the specification
words it: the escaped id when the node has a non-empty id, otherwise the
lower-cased tag name with the class list and the optional ordinal. -/
def specSeg (root : DNode) (q : List Nat) : SelSeg :=
  match nodeAt root q with
  | none => SelSeg.idSeg ""
  | some cur =>
    if cur.idOf ≠ "" then SelSeg.idSeg cur.idOf
    else SelSeg.tagSeg (lowerStr cur.nameOf) cur.classesOf (nthFor root q cur)

/-- Whether the node at path `q` carries a non-empty id. -/
def hasIdAt (root : DNode) (q : List Nat) : Bool :=
  match nodeAt root q with
  | some e => e.idOf != ""
  | none => false

/-- Keeps an ancestor walk (node-to-root order) up to and including the
first id-bearing node, dropping everything above it. -/
def takeUntilId (root : DNode) : List (List Nat) → List (List Nat)
  | [] => []
  | q :: rest => if hasIdAt root q then [q] else q :: takeUntilId root rest

/-- Declarative form of selector synthesis, transcribing the specified
algorithm: walk the ancestor chain from the node toward the root, stop
at the first node with a non-empty id, emit one segment per remaining
chain node, and list the segments in root-to-node order. -/
def toSelectorSpec (root : DNode) (p : List Nat) : List SelSeg :=
  ((takeUntilId root (List.reverse p.inits)).reverse).map (specSeg root)

/-- Whether some prefix of the path (the node itself included) carries a
non-empty id, i.e. the node is reachable from an id-bearing ancestor. -/
def hasIdAncestor (root : DNode) (p : List Nat) : Bool :=
  p.inits.any (hasIdAt root)

/-- CSS matching of one segment against the element at path `q`: an id
segment compares ids, a tag segment compares the lower-cased tag name,
requires every listed class, and checks the `nth-of-type` ordinal among
same-tag element siblings (the document root is its parent's only
element child, hence ordinal 1). -/
def matchesSeg (root : DNode) (q : List Nat) (s : SelSeg) : Bool :=
  match nodeAt root q with
  | none => false
  | some e =>
    match s with
    | .idSeg i => e.idOf == i
    | .tagSeg t cls nth =>
      (lowerStr e.nameOf == t) && cls.all (fun c => e.classesOf.contains c) &&
        (match nth with
         | none => true
         | some n =>
           match q.getLast? with
           | none => n == 1
           | some i =>
             match nodeAt root q.dropLast with
             | some par => (countTag (par.echildren.take i) e.nameOf + 1) == n
             | none => false)

/-- Matching of a child-combinator chain given in reverse (deepest
segment first) at path `q`: the head segment matches at `q` and every
further segment matches at the successive strict parents; the shallowest
segment may sit at any depth. -/
def matchesRev (root : DNode) : List SelSeg → List Nat → Bool
  | [], _ => true
  | s :: ss, q =>
    matchesSeg root q s &&
      (ss.isEmpty || (!q.isEmpty && matchesRev root ss q.dropLast))

/-- CSS matching of a selector (segments in root-to-node order, joined
by the child combinator) at path `q`. -/
def cssMatches (root : DNode) (segs : List SelSeg) (q : List Nat) : Bool :=
  !segs.isEmpty && matchesRev root segs.reverse q

/-- `document.querySelector`: the first element in document order that
the selector matches. -/
def cssQuerySelector (doc : Document) (segs : List SelSeg) : Option (List Nat) :=
  (nodePaths doc).find? (cssMatches doc.root segs)

/-- The non-empty id values of the document, in document order. -/
def docIds (doc : Document) : List String :=
  (nodePaths doc).filterMap fun q =>
    match nodeAt doc.root q with
    | some e => if e.idOf ≠ "" then some e.idOf else none
    | none => none

/-- No two elements of the document share a non-empty id (the validity
assumption behind using `#id` as a selector anchor). -/
def uniqueIds (doc : Document) : Prop := (docIds doc).Nodup

instance (doc : Document) : Decidable (uniqueIds doc) :=
  List.nodupDecidable (docIds doc)

/-- Every element's `nodeName` is already lower-case, the canonical form
in which CSS type selectors compare for a single-namespace document. -/
def tagsNormalized (doc : Document) : Bool :=
  (nodePaths doc).all fun q =>
    match nodeAt doc.root q with
    | some e => lowerStr e.nameOf == e.nameOf
    | none => true


/-- Characters the XPath `normalize-space` function (and the model of
JavaScript `trim`) treats as whitespace. -/
def isXmlWs (c : Char) : Bool :=
  c = ' ' || c = '\t' || c = '\n' || c = '\r'

/-- Splits a character list into maximal whitespace-free words (the
accumulator holds the current word reversed). -/
def wordsAux : List Char → List Char → List (List Char)
  | [], acc => if acc.isEmpty then [] else [acc.reverse]
  | c :: cs, acc =>
    if isXmlWs c then
      if acc.isEmpty then wordsAux cs [] else acc.reverse :: wordsAux cs []
    else wordsAux cs (c :: acc)

/-- XPath `normalize-space`: strip leading and trailing whitespace and
collapse internal whitespace runs to a single space. -/
def normalizeSpace (s : String) : String :=
  ⟨List.intercalate [' '] (wordsAux s.data [])⟩

/-- Whether `needle` occurs as a contiguous run in the second list. -/
def containsChars (needle : List Char) : List Char → Bool
  | [] => needle.isEmpty
  | b :: bs => needle.isPrefixOf (b :: bs) || containsChars needle bs

/-- XPath `contains(hay, needle)`: case-sensitive substring test. -/
def containsSub (hay needle : String) : Bool :=
  containsChars needle.data hay.data

/-- The string value of the first direct text-node child, if any: this
is what the node-set `text()` coerces to in XPath 1.0 when handed to a
string function. -/
def firstTextChild (cs : List DNode) : Option String :=
  cs.findSome? fun c =>
    match c with
    | .text s => some s
    | .elem _ _ => none

/-- The predicate of the XPath query the source builds,
`contains(normalize-space(text()), q)`, evaluated at one element: the
element passes when the normalize-space of its FIRST direct text-node
child (empty string when it has none) contains `q`. -/
def xpathTextMatches (n : DNode) (q : String) : Bool :=
  match n with
  | .elem _ cs => containsSub (normalizeSpace ((firstTextChild cs).getD "")) q
  | .text _ => false

/-- Whether the string contains a double-quote character. -/
def hasDoubleQuote (s : String) : Bool :=
  s.data.any fun c => c = '"'

/-- The per-element match of the XPath query the source builds, lifted
to paths of the document. -/
def findByTextPred (doc : Document) (q : String) (p : List Nat) : Bool :=
  match nodeAt doc.root p with
  | some e => xpathTextMatches e q
  | none => false

/-- `findByText` from the source.  The source interpolates the query
into an XPath string literal after replacing each double quote with a
backslash-quote; XPath 1.0 string literals have no escape sequences, so
a query containing a double quote produces a malformed expression and
the evaluation throws - modelled as the error branch.  Otherwise the
matches of `//*[contains(normalize-space(text()), q)]` are collected in
document order; the first handle is returned and the rest are disposed
(returned in the second component). -/
def findByText (doc : Document) (text : String) :
    Except String (Option (List Nat) × List (List Nat)) :=
  if hasDoubleQuote text then
    Except.error "Invalid XPath expression"
  else
    match (nodePaths doc).filter (findByTextPred doc text) with
    | [] => Except.ok (none, [])
    | first :: rest => Except.ok (some first, rest)

/-- Full text content of a node: concatenation of all descendant text
nodes in document order (DOM `textContent`), with structural fuel. -/
def textContentF : Nat → DNode → String
  | 0, _ => ""
  | _ + 1, .text s => s
  | fuel + 1, .elem _ cs => String.join (cs.map fun c => textContentF fuel c)

/-- Text content of the element at path `p` of a document. -/
def textContent (doc : Document) (p : List Nat) : String :=
  match nodeAt doc.root p with
  | some n => textContentF doc.depth n
  | none => ""

/-- Text-query resolution as claim C7 words it: a case-sensitive
substring match over the normalized, whitespace-collapsed TEXT CONTENT
of every element, returning the first match in document order.  This is
the claim-side definition, to be compared with `findByText`. -/
def findByTextClaim (doc : Document) (q : String) : Option (List Nat) :=
  ((nodePaths doc).filter fun p =>
    containsSub (normalizeSpace (textContent doc p)) q).head?

/-- JavaScript string truthiness of an optional string: absent and
empty strings are falsy. -/
def truthyStr : Option String → Bool
  | some s => s ≠ ""
  | none => false

/-- JavaScript trim, at ASCII whitespace granularity. -/
def jsTrim (s : String) : String :=
  ⟨((s.data.dropWhile isXmlWs).reverse.dropWhile isXmlWs).reverse⟩

/-- JavaScript `slice(0, 160)` on the text payload. -/
def take160 (s : String) : String :=
  ⟨s.data.take 160⟩

/-- The JSON failure payload `printJSON({ ok: false, error: message })`
written by `fail` in config.js. -/
structure ErrJson where
  ok : Bool
  error : String
deriving DecidableEq, Repr

/-- The element descriptor built by `collectElementInfo` (the success
JSON output of element.js). -/
structure Descriptor where
  selector : String
  tag : String
  id : Option String
  classes : List String
  text : String
  attributes : List (String × String)
  rect : Rect
  visible : Bool
  children : Nat
deriving DecidableEq, Repr

/-- A live page as the host command sees it: the document plus the
browser primitives that are outside the source - the CSS engine behind
`page.$` (an oracle from selector strings to paths), the bounding
rectangle an element reports after `scrollIntoView`, and whether
`handle.click()` rejects. -/
structure PageModel where
  doc : Document
  query : String → Option (List Nat)
  rectAfterScroll : List Nat → Rect
  clickError : Option String

/-- `collectElementInfo` from the source: the descriptor of the element
at path `p`, echoing `selectorHint` verbatim when present and
synthesizing a selector otherwise; `innerText` is modelled as text
content; the rectangle is read at call time, so it is the post-scroll
rectangle only when the element was scrolled BEFORE collection. -/
def collectElementInfo (page : PageModel) (p : List Nat) (selectorHint : Option String)
    (scrolled : Bool) : Option Descriptor :=
  match nodeAt page.doc.root p with
  | none => none
  | some el =>
    some
      { selector := selectorHint.getD (toSelector page.doc.root p)
        tag := lowerStr el.nameOf
        id := if el.idOf ≠ "" then some el.idOf else none
        classes := el.classesOf
        text := take160 (jsTrim (textContent page.doc p))
        attributes := el.dataOf.attrs
        rect := if scrolled then page.rectAfterScroll p else el.dataOf.rect
        visible := el.dataOf.hasOffsetParent
        children := el.echildren.length }

/-- The observable events of one element.js invocation, in order:
descriptor capture (inside resolution), scroll, click, output. -/
inductive FlowEvent where
  | capture
  | scrollIntoView
  | clickElem
  | emit
deriving DecidableEq, Repr

/-- The outcome of one invocation: a success descriptor, or a failure
with message, process exit code, and the machine-readable payload when
JSON mode is on (`fail` in config.js: code defaults to 1; JSON mode
prints the error object, otherwise the message goes to stderr). -/
inductive MainOut where
  | success : Descriptor → MainOut
  | failure : String → Nat → Option ErrJson → MainOut
deriving DecidableEq, Repr

/-- `fail(message, { json })` from config.js. -/
def failOut (message : String) (json : Bool) : MainOut :=
  MainOut.failure message 1 (if json then some ⟨false, message⟩ else none)

/-- `resolveElement` from the source: direct selector when the
positional argument is truthy, else text search when `--text` is
truthy, else the interactive pick (whose outcome, a path plus the
in-page synthesized selector, is an input here; the picker itself is
modelled separately).  The descriptor is collected HERE, before any
scroll or click happens, with the input selector echoed verbatim as the
hint in the direct-selector branch. -/
def resolveElementM (page : PageModel) (selector textSearch : Option String)
    (pickRes : Option (List Nat × String)) :
    Except String (Option (List Nat × Descriptor)) :=
  if truthyStr selector then
    match page.query (selector.getD "") with
    | none => Except.ok none
    | some p =>
      match collectElementInfo page p (some (selector.getD "")) false with
      | some info => Except.ok (some (p, info))
      | none => Except.error "invalid handle"
  else if truthyStr textSearch then
    match findByText page.doc (textSearch.getD "") with
    | Except.error e => Except.error e
    | Except.ok (none, _) => Except.ok none
    | Except.ok (some p, _) =>
      match collectElementInfo page p none false with
      | some info => Except.ok (some (p, info))
      | none => Except.error "invalid handle"
  else
    match pickRes with
    | none => Except.ok none
    | some (p, selStr) =>
      match collectElementInfo page p (some selStr) false with
      | some info => Except.ok (some (p, info))
      | none => Except.error "invalid handle"

/-- The main flow of element.js after connection: resolve (capturing
the descriptor), fail with the mode-specific message when nothing
resolved, apply scroll then click, then emit the captured descriptor.
The event list records the order in which capture, scroll, click and
output happen. -/
def elementMain (page : PageModel) (selector textSearch : Option String)
    (pickRes : Option (List Nat × String)) (scrollFlag clickFlag jsonFlag : Bool) :
    MainOut × List FlowEvent :=
  match resolveElementM page selector textSearch pickRes with
  | Except.error e => (failOut ("Element lookup failed: " ++ e) jsonFlag, [])
  | Except.ok none =>
    (failOut
      (if truthyStr selector then "Selector not found: " ++ selector.getD ""
       else if truthyStr textSearch then
         "No element found containing text: " ++ textSearch.getD ""
       else "No element selected.") jsonFlag, [])
  | Except.ok (some (_, info)) =>
    let log2 := [FlowEvent.capture] ++ (if scrollFlag then [FlowEvent.scrollIntoView] else [])
    if clickFlag then
      match page.clickError with
      | some e => (failOut ("Click failed: " ++ e) jsonFlag, log2)
      | none => (MainOut.success info, log2 ++ [FlowEvent.clickElem, FlowEvent.emit])
    else (MainOut.success info, log2 ++ [FlowEvent.emit])

/-- JavaScript machine numbers at the granularity the connection
resolver needs: finite integers, NaN and the infinities. -/
inductive JsNum where
  | fin : Int → JsNum
  | nan : JsNum
  | inf : JsNum
  | negInf : JsNum
deriving DecidableEq, Repr

/-- `Number.isFinite`. -/
def JsNum.isFinite : JsNum → Bool
  | .fin _ => true
  | _ => false

/-- Decimal digit accumulator for the Number() model. -/
def parseDigits : List Char → Nat → Option Nat
  | [], acc => some acc
  | c :: cs, acc =>
    if c.isDigit then parseDigits cs (acc * 10 + (c.toNat - 48)) else none

/-- Model of JavaScript `Number()` on strings: trim, empty is 0, an
optional sign with decimal digits is finite, Infinity forms are the
infinities, anything else (hex, fractional, garbage) is NaN.  This maps
fractional numeric strings to NaN; no claim depends on them. -/
def jsNumberOfString (s : String) : JsNum :=
  let t := jsTrim s
  if t = "" then .fin 0
  else if t = "Infinity" || t = "+Infinity" then .inf
  else if t = "-Infinity" then .negInf
  else
    match t.data with
    | '+' :: ds =>
      match (if ds.isEmpty then none else parseDigits ds 0) with
      | some n => .fin n
      | none => .nan
    | '-' :: ds =>
      match (if ds.isEmpty then none else parseDigits ds 0) with
      | some n => .fin (-(n : Int))
      | none => .nan
    | ds =>
      match parseDigits ds 0 with
      | some n => .fin n
      | none => .nan

/-- An input value of `normalizeNumber`: absent, a number, or a string. -/
inductive NumInput where
  | undef : NumInput
  | num : JsNum → NumInput
  | str : String → NumInput
deriving DecidableEq, Repr

/-- `normalizeNumber` from config.js: strings go through Number(), then
`Number.isFinite(number) ? number : fallback`; `Number.isFinite` does
not coerce, so an absent value also falls back. -/
def normalizeNumber (value : NumInput) (fallback : JsNum) : JsNum :=
  match value with
  | .str s => if (jsNumberOfString s).isFinite then jsNumberOfString s else fallback
  | .num n => if n.isFinite then n else fallback
  | .undef => fallback

/-- The connection-relevant flags handed to `resolveBrowserConnection`. -/
structure ConnFlags where
  ws : Option String
  host : Option String
  port : NumInput

/-- The environment variables the resolver reads. -/
structure EnvVars where
  wsUrl : Option String
  browserHost : Option String
  browserPort : Option String

/-- The connection descriptor: a websocket endpoint, or a host/port
URL (`defaultViewport: null` is constant in both shapes and omitted). -/
inductive ConnOptions where
  | endpoint : String → ConnOptions
  | url : String → JsNum → ConnOptions
deriving DecidableEq, Repr

/-- JavaScript nullish coalescing on optional strings: only absent
values fall through; an empty string does not. -/
def jsNullishStr (a b : Option String) : Option String :=
  match a with
  | some s => some s
  | none => b

/-- `resolveBrowserConnection` from config.js: the endpoint branch is
guarded by TRUTHINESS of `flags.ws || env.BROWSER_WS_URL` but the value
is the NULLISH coalescing `flags.ws ?? env.BROWSER_WS_URL`; otherwise
host is `flags.host ?? BROWSER_HOST ?? "localhost"` and port is
`normalizeNumber(flags.port ?? BROWSER_PORT ?? DEFAULT_PORT, 9222)`. -/
def resolveBrowserConnection (flags : ConnFlags) (env : EnvVars) : ConnOptions :=
  if truthyStr flags.ws || truthyStr env.wsUrl then
    ConnOptions.endpoint ((jsNullishStr flags.ws env.wsUrl).getD "")
  else
    let host := (jsNullishStr flags.host env.browserHost).getD "localhost"
    let portInput : NumInput :=
      match flags.port with
      | .undef =>
        match env.browserPort with
        | some s => .str s
        | none => .num (.fin 9222)
      | v => v
    ConnOptions.url host (normalizeNumber portInput (.fin 9222))

/-- Identity of a DOM node inside the picker session. -/
abbrev NodeId := Nat

/-- The page state the picker touches before it starts. -/
structure PickerEnv where
  outlines : NodeId → String
  cursor : String

/-- State of one in-page picker session, plus the observables the
claims talk about: the promise settlement (`none` while pending), the
handoff slot, how many times cleanup ran, how many clicks were
intercepted, and how many uncaught reference errors handlers raised. -/
structure Session where
  resolved : Bool
  highlight : Option NodeId
  previousOutline : Option String
  timer : Option Int
  outlines : NodeId → String
  cursor : String
  originalCursor : String
  mouseoverListener : Bool
  clickListener : Bool
  blurArmed : Bool
  stash : Option NodeId
  settled : Option (Option NodeId)
  cleanupCount : Nat
  interceptedClicks : Nat
  refErrors : Nat

/-- The events a picker session can receive. -/
inductive PickerEvent where
  | hover : NodeId → Bool → PickerEvent
  | click : NodeId → PickerEvent
  | timerFire : PickerEvent
  | blur : PickerEvent
  | cancelHook : PickerEvent
deriving DecidableEq, Repr

/-- `timeoutMs || 60000` at the pickElement call site: 0, NaN and
undefined are all falsy (the host passes a normalized finite number,
modelled as `Option Int` with `none` for undefined). -/
def jsOrTimeout (t : Option Int) : Int :=
  match t with
  | some n => if n ≠ 0 then n else 60000
  | none => 60000

/-- Picker initialization: capture the original cursor, set the
crosshair cursor, install both capturing document listeners, arm the
once-only blur listener and the cancel hook, and arm the timer with
`timeout ? setTimeout(..., timeout) : null` where `timeout` is the
already-defaulted `timeoutMs || 60000`. -/
def initSession (env : PickerEnv) (timeoutMs : Option Int) : Session :=
  let evalArg := jsOrTimeout timeoutMs
  { resolved := false
    highlight := none
    previousOutline := none
    timer := if evalArg ≠ 0 then some evalArg else none
    outlines := env.outlines
    cursor := "crosshair"
    originalCursor := env.cursor
    mouseoverListener := true
    clickListener := true
    blurArmed := true
    stash := none
    settled := none
    cleanupCount := 0
    interceptedClicks := 0
    refErrors := 0 }

/-- The outline map after restoring the currently highlighted node to
its saved value (`state.highlight.style.outline = state.previousOutline
?? ""`), the restore step shared by `cleanup` and `highlight`. -/
def outAfterRestore (s : Session) : NodeId → String :=
  match s.highlight with
  | some h => Function.update s.outlines h (s.previousOutline.getD "")
  | none => s.outlines

/-- `cleanup` from the source: restore the highlighted node outline to
its saved value, restore the cursor, remove both document listeners,
and clear the pending timer. -/
def cleanupRun (s : Session) : Session :=
  { s with
    outlines := outAfterRestore s
    cursor := s.originalCursor
    mouseoverListener := false
    clickListener := false
    timer := none
    cleanupCount := s.cleanupCount + 1 }

/-- `highlight(element)` from the source: no-op when the element is
already highlighted; otherwise restore the previous node, save the new
node's current outline and paint the red outline. -/
def highlightRun (s : Session) (t : NodeId) : Session :=
  if s.highlight = some t then s
  else
    { s with
      highlight := some t
      previousOutline := some (outAfterRestore s t)
      outlines := Function.update (outAfterRestore s) t "3px solid #ff4444" }

/-- One step of the picker session.  A handler runs only while its
listener is installed.  The click handler always default-prevents and
stops propagation first, then checks the resolved guard; past the
guard it sets the flag and runs cleanup, and then evaluates
`resolve(resolveSelection(event.target))`.  `resolve` is an identifier
bound only inside the Promise executor, and in a call expression the
callee reference is dereferenced BEFORE the argument list is evaluated,
so dereferencing the unresolvable `resolve` raises a ReferenceError
first: `resolveSelection` never runs, the handoff slot
(`window.__BT_PICKED_ELEMENT`) is never written, and the promise is NOT
settled.  The timer, blur and cancel handlers are defined inside the
executor and do settle the promise with null. -/
def stepEvent (s : Session) : PickerEvent → Session
  | .hover t isHtml =>
    if s.mouseoverListener then
      if s.resolved then s
      else if isHtml then highlightRun s t else s
    else s
  | .click _ =>
    if s.clickListener then
      let s0 := { s with interceptedClicks := s.interceptedClicks + 1 }
      if s0.resolved then s0
      else
        let s1 := cleanupRun { s0 with resolved := true }
        { s1 with refErrors := s1.refErrors + 1 }
    else s
  | .timerFire =>
    match s.timer with
    | none => s
    | some _ =>
      if s.resolved then s
      else { cleanupRun { s with resolved := true } with settled := some none }
  | .blur =>
    if s.blurArmed then
      let s0 := { s with blurArmed := false }
      if s0.resolved then s0
      else { cleanupRun { s0 with resolved := true } with settled := some none }
    else s
  | .cancelHook =>
    if s.resolved then s
    else { cleanupRun { s with resolved := true } with settled := some none }

/-- A whole picker session: initialization followed by the events. -/
def runPicker (env : PickerEnv) (timeoutMs : Option Int) (events : List PickerEvent) :
    Session :=
  events.foldl stepEvent (initSession env timeoutMs)

/-- Observables of the host side of `pickElement` after the in-page
evaluation settles. -/
structure PickHostOut where
  retrievalAttempted : Bool
  handleDisposed : Bool
  slotCleared : Bool
  result : Option Descriptor
deriving DecidableEq, Repr

/-- The host side of `pickElement` (element.js lines 342-358): when the
in-page result is null, return null WITHOUT attempting handoff
retrieval; otherwise run the retrieval evaluation (which reads and
clears the slot), and when `handle.asElement()` is null - the slot held
no element node - dispose the handle and return null; otherwise collect
the full descriptor with the in-page selector as the hint. -/
def pickElementHost (page : PageModel) (settledVal : Option String)
    (slot : Option (List Nat)) : PickHostOut :=
  match settledVal with
  | none =>
    { retrievalAttempted := false, handleDisposed := false, slotCleared := false
      result := none }
  | some selStr =>
    match slot with
    | none =>
      { retrievalAttempted := true, handleDisposed := true, slotCleared := true
        result := none }
    | some p =>
      { retrievalAttempted := true, handleDisposed := false, slotCleared := true
        result := collectElementInfo page p (some selStr) false }

/-- Short form for a visible element node with empty attributes and a
zero rectangle. -/
def mkElem (tag idv : String) (classes : List String) (cs : List DNode) : DNode :=
  .elem ⟨tag, idv, classes, [], ⟨0, 0, 0, 0⟩, true⟩ cs

/-- A document with two distinct elements sharing the id `x` (HTML does
not enforce id uniqueness; `querySelector` then returns the first). -/
def docDupIds : Document where
  root := mkElem "div" "r" [] [mkElem "div" "x" [] [], mkElem "div" "x" [] []]
  depth := 2
  rootElem := by decide
  bounded := by decide

/-- A well-formed document: unique ids, lower-case tags, an id-bearing
root, a classed wrapper and two same-tag siblings below it. -/
def docNested : Document where
  root := mkElem "div" "top" []
    [mkElem "div" "" ["a"] [mkElem "span" "" [] [], mkElem "span" "" ["b"] []]]
  depth := 3
  rootElem := by decide
  bounded := by decide

/-- A document whose root has the query text only in its SECOND direct
text-node child: `<div>a<b>x</b>Submit please</div>`. -/
def docSplitText : Document where
  root := DNode.elem ⟨"div", "", [], [], ⟨0, 0, 0, 0⟩, true⟩
    [DNode.text "a",
     DNode.elem ⟨"b", "", [], [], ⟨0, 0, 0, 0⟩, true⟩ [DNode.text "x"],
     DNode.text "Submit please"]
  depth := 3
  rootElem := by decide
  bounded := by decide

/-- A document with two elements whose first text child contains
`Submit`, to exercise first-match-wins and disposal. -/
def docTwoSubmit : Document where
  root := mkElem "div" "" []
    [DNode.elem ⟨"p", "", [], [], ⟨0, 0, 0, 0⟩, true⟩ [DNode.text "Submit A"],
     DNode.elem ⟨"p", "", [], [], ⟨0, 0, 0, 0⟩, true⟩ [DNode.text "Submit B"]]
  depth := 3
  rootElem := by decide
  bounded := by decide

/-- A one-element page whose element reports a different rectangle
after being scrolled into view, with a CSS oracle that resolves `#el`
to the root and nothing else, and a click that succeeds. -/
def pageScroll : PageModel where
  doc :=
    { root := DNode.elem ⟨"div", "el", [], [], ⟨1, 2, 3, 4⟩, true⟩ []
      depth := 1
      rootElem := by decide
      bounded := by decide }
  query := fun s => if s = "#el" then some [] else none
  rectAfterScroll := fun _ => ⟨5, 6, 3, 4⟩
  clickError := none

/-- The picker page used in concrete runs: node 7 carries a non-empty
outline style, every other node none, and the body cursor is `auto`. -/
def envPick : PickerEnv where
  outlines := fun n => if n = 7 then "1px solid blue" else ""
  cursor := "auto"

/-- Invariant of the picker session relative to the starting page state
and the timeout argument: while unresolved, nothing is cleaned up, the
listeners are installed, the timer is armed with the defaulted delay,
the promise is pending and at most the highlighted node deviates from
the original outlines (with its original value saved); once resolved,
cleanup has run exactly once and every mutated piece of page state is
back to its original value. -/
def InvP (env : PickerEnv) (t : Option Int) (s : Session) : Prop :=
  (s.resolved = false →
    s.cleanupCount = 0 ∧ s.mouseoverListener = true ∧ s.clickListener = true ∧
    s.cursor = "crosshair" ∧ s.originalCursor = env.cursor ∧
    s.timer = some (jsOrTimeout t) ∧ s.settled = none ∧
    (match s.highlight with
     | none => s.previousOutline = none ∧ ∀ n, s.outlines n = env.outlines n
     | some h => s.previousOutline = some (env.outlines h) ∧
         s.outlines h = "3px solid #ff4444" ∧
         ∀ n, n ≠ h → s.outlines n = env.outlines n)) ∧
  (s.resolved = true →
    s.cleanupCount = 1 ∧ s.mouseoverListener = false ∧ s.clickListener = false ∧
    s.timer = none ∧ s.cursor = env.cursor ∧ s.originalCursor = env.cursor ∧
    (∀ n, s.outlines n = env.outlines n))

/-- Segments emitted for the strict descendants along `steps` below
`base`: one declarative segment per non-empty prefix of `steps`. -/
def chainSegs (root : DNode) (base steps : List Nat) : List SelSeg :=
  steps.inits.tail.map fun t => specSeg root (base ++ t)

theorem nodeAt_append (root : DNode) (a b : List Nat) :
    nodeAt root (a ++ b) = (nodeAt root a).bind fun n => nodeAt n b := by
  induction a generalizing root with
  | nil => simp [nodeAt]
  | cons i t ih =>
    simp only [List.cons_append, nodeAt]
    cases (DNode.echildren root).get? i with
    | none => rfl
    | some c => simp [ih]

theorem nodeAt_concat (root : DNode) (a : List Nat) (i : Nat) :
    nodeAt root (a ++ [i]) = (nodeAt root a).bind fun n => n.echildren.get? i := by
  rw [nodeAt_append]
  cases nodeAt root a with
  | none => rfl
  | some n =>
    show nodeAt n [i] = n.echildren.get? i
    unfold nodeAt
    cases hx : n.echildren.get? i with
    | none => rfl
    | some c => rfl

theorem isSome_prefix {root : DNode} {a b : List Nat}
    (h : (nodeAt root (a ++ b)).isSome = true) : (nodeAt root a).isSome = true := by
  rw [nodeAt_append] at h
  cases hx : nodeAt root a with
  | none => rw [hx] at h; simp at h
  | some n => rfl

theorem echildren_mem_isElem {n c : DNode} (h : c ∈ n.echildren) : c.isElem = true :=
  (List.mem_filter.1 h).2

theorem echildren_sub {n c : DNode} (h : c ∈ n.echildren) : c ∈ n.childrenAll :=
  (List.mem_filter.1 h).1

theorem depthLe_child {fuel : Nat} {d : ElemData} {cs : List DNode} {c : DNode}
    (hd : depthLe (fuel + 1) (.elem d cs) = true) (hc : c ∈ (DNode.elem d cs).echildren) :
    depthLe fuel c = true := by
  have hall : cs.all (fun c => depthLe fuel c) = true := hd
  exact (List.all_eq_true.1 hall) c (echildren_sub hc)

theorem mem_pathsF_cons {fuel : Nat} {d : ElemData} {cs : List DNode} {i : Nat}
    {t : List Nat} :
    (i :: t) ∈ nodePathsF (fuel + 1) (.elem d cs) ↔
      ∃ c, (DNode.elem d cs).echildren.get? i = some c ∧ t ∈ nodePathsF fuel c := by
  constructor
  · intro hmem
    simp only [nodePathsF, List.mem_cons] at hmem
    rcases hmem with h | h
    · cases h
    · rcases List.mem_flatMap.1 h with ⟨j, _, hin⟩
      cases hget : (DNode.elem d cs).echildren.get? j with
      | none => rw [hget] at hin; cases hin
      | some c =>
        rw [hget] at hin
        rcases List.mem_map.1 hin with ⟨r, hr, heq⟩
        have hji : j = i := by injection heq
        have hrt : r = t := by injection heq with h1 h2
        subst hji; subst hrt
        exact ⟨c, hget, hr⟩
  · rintro ⟨c, hget, ht⟩
    have hlt : i < (DNode.elem d cs).echildren.length := by
      rcases List.get?_eq_some.1 hget with ⟨h, _⟩
      exact h
    simp only [nodePathsF, List.mem_cons]
    refine Or.inr (List.mem_flatMap.2 ⟨i, List.mem_range.2 hlt, ?_⟩)
    rw [hget]
    exact List.mem_map.2 ⟨t, ht, rfl⟩

theorem mem_nodePathsF {fuel : Nat} {root : DNode} (hd : depthLe fuel root = true)
    (he : root.isElem = true) (q : List Nat) :
    q ∈ nodePathsF fuel root ↔ (nodeAt root q).isSome = true := by
  induction q generalizing fuel root with
  | nil =>
    cases fuel with
    | zero => simp [depthLe] at hd
    | succ f =>
      cases root with
      | text s => simp [DNode.isElem] at he
      | elem d cs => simp [nodePathsF, nodeAt]
  | cons i t ih =>
    cases fuel with
    | zero => simp [depthLe] at hd
    | succ f =>
      cases root with
      | text s => simp [DNode.isElem] at he
      | elem d cs =>
        rw [mem_pathsF_cons]
        constructor
        · rintro ⟨c, hget, ht⟩
          have hc : c ∈ (DNode.elem d cs).echildren := List.get?_mem hget
          have := (ih (depthLe_child hd hc) (echildren_mem_isElem hc)).1 ht
          simp only [nodeAt]
          rw [hget]
          exact this
        · intro hsome
          simp only [nodeAt] at hsome
          cases hget : (DNode.elem d cs).echildren.get? i with
          | none => rw [hget] at hsome; simp at hsome
          | some c =>
            rw [hget] at hsome
            have hc : c ∈ (DNode.elem d cs).echildren := List.get?_mem hget
            exact ⟨c, rfl, (ih (depthLe_child hd hc) (echildren_mem_isElem hc)).2 hsome⟩

theorem mem_nodePaths {doc : Document} (q : List Nat) :
    q ∈ nodePaths doc ↔ (nodeAt doc.root q).isSome = true :=
  mem_nodePathsF doc.bounded doc.rootElem q

theorem filtLen_take_succ {α : Type} (p : α → Bool) (l : List α) (i : Nat) (a : α)
    (hget : l.get? i = some a) (hp : p a = true) :
    ((l.take (i + 1)).filter p).length = ((l.take i).filter p).length + 1 := by
  induction l generalizing i with
  | nil => simp [List.get?] at hget
  | cons x t ih =>
    cases i with
    | zero =>
      have hx : x = a := by simpa [List.get?] using hget
      subst hx
      simp [List.filter, hp]
    | succ j =>
      have hget' : t.get? j = some a := by simpa [List.get?] using hget
      simp only [List.take_succ_cons, List.filter]
      cases hpx : p x <;> simp [List.filter, hpx, ih j hget']

theorem filtLen_take_mono {α : Type} (p : α → Bool) (l : List α) {i j : Nat} (h : i ≤ j) :
    ((l.take i).filter p).length ≤ ((l.take j).filter p).length := by
  have hpre : l.take i <+: l.take j := by
    rw [show l.take i = (l.take j).take i by rw [List.take_take, Nat.min_eq_left h]]
    exact List.take_prefix i (l.take j)
  exact (List.IsPrefix.filter p hpre).sublist.length_le

theorem filtLen_le_filter {α : Type} (p : α → Bool) (l : List α) (i : Nat) :
    ((l.take i).filter p).length ≤ (l.filter p).length :=
  (List.IsPrefix.filter p (List.take_prefix i l)).sublist.length_le

theorem filtLen_index_inj {α : Type} (p : α → Bool) (l : List α) {i j : Nat} {a b : α}
    (ha : l.get? i = some a) (hb : l.get? j = some b)
    (hpa : p a = true) (hpb : p b = true)
    (heq : ((l.take i).filter p).length = ((l.take j).filter p).length) : i = j := by
  rcases Nat.lt_trichotomy i j with hij | hij | hij
  · have h1 := filtLen_take_succ p l i a ha hpa
    have h2 := filtLen_take_mono p l (show i + 1 ≤ j by omega)
    omega
  · exact hij
  · have h1 := filtLen_take_succ p l j b hb hpb
    have h2 := filtLen_take_mono p l (show j + 1 ≤ i by omega)
    omega

theorem filtLen_two {α : Type} (p : α → Bool) (l : List α) {i j : Nat} {a b : α}
    (hne : i ≠ j) (ha : l.get? i = some a) (hb : l.get? j = some b)
    (hpa : p a = true) (hpb : p b = true) : 2 ≤ (l.filter p).length := by
  have key : ∀ {i j : Nat} {a b : α}, i < j → l.get? i = some a → l.get? j = some b →
      p a = true → p b = true → 2 ≤ (l.filter p).length := by
    intro i j a b hij ha hb hpa hpb
    have h1 := filtLen_take_succ p l i a ha hpa
    have h2 := filtLen_take_succ p l j b hb hpb
    have h3 := filtLen_take_mono p l (show i + 1 ≤ j by omega)
    have h4 := filtLen_le_filter p l (j + 1)
    omega
  rcases Nat.lt_or_ge i j with hij | hij
  · exact key hij ha hb hpa hpb
  · exact key (Nat.lt_of_le_of_ne hij fun h => hne h.symm) hb ha hpb hpa

theorem not_nodup_filterMap {α β : Type} (l : List α) (f : α → Option β) {a b : α} {v : β}
    (ha : a ∈ l) (hb : b ∈ l) (hne : a ≠ b) (fa : f a = some v) (fb : f b = some v) :
    ¬ (l.filterMap f).Nodup := by
  induction l with
  | nil => cases ha
  | cons x t ih =>
    intro hnd
    have hmemv : ∀ c ∈ t, f c = some v → v ∈ t.filterMap f := fun c hc hfc =>
      List.mem_filterMap.2 ⟨c, hc, hfc⟩
    rcases List.mem_cons.1 ha with hax | hat
    · subst hax
      rcases List.mem_cons.1 hb with hbx | hbt
      · exact hne hbx.symm
      · rw [List.filterMap_cons, fa] at hnd
        exact (List.nodup_cons.1 hnd).1 (hmemv b hbt fb)
    · rcases List.mem_cons.1 hb with hbx | hbt
      · subst hbx
        rw [List.filterMap_cons, fb] at hnd
        exact (List.nodup_cons.1 hnd).1 (hmemv a hat fa)
      · have hndt : (t.filterMap f).Nodup := by
          rw [List.filterMap_cons] at hnd
          cases hfx : f x with
          | none => rw [hfx] at hnd; exact hnd
          | some w => rw [hfx] at hnd; exact (List.nodup_cons.1 hnd).2
        exact ih hat hbt hndt

theorem nodeAt_id_unique {doc : Document} {q1 q2 : List Nat} {e1 e2 : DNode}
    (hu : uniqueIds doc)
    (h1 : nodeAt doc.root q1 = some e1) (h2 : nodeAt doc.root q2 = some e2)
    (hid : e1.idOf = e2.idOf) (hne : e1.idOf ≠ "") : q1 = q2 := by
  by_contra hq
  have hne2 : e2.idOf ≠ "" := by rw [← hid]; exact hne
  have fa : (match nodeAt doc.root q1 with
      | some e => if e.idOf ≠ "" then some e.idOf else none
      | none => none) = some e1.idOf := by
    rw [h1]
    show (if e1.idOf ≠ "" then some e1.idOf else none) = some e1.idOf
    rw [if_pos hne]
  have fb : (match nodeAt doc.root q2 with
      | some e => if e.idOf ≠ "" then some e.idOf else none
      | none => none) = some e1.idOf := by
    rw [h2]
    show (if e2.idOf ≠ "" then some e2.idOf else none) = some e1.idOf
    rw [if_pos hne2, ← hid]
  exact not_nodup_filterMap (nodePaths doc) _
    ((mem_nodePaths q1).2 (by rw [h1]; rfl))
    ((mem_nodePaths q2).2 (by rw [h2]; rfl)) hq fa fb hu

theorem normAt {doc : Document} (hn : tagsNormalized doc = true) {q : List Nat} {e : DNode}
    (h : nodeAt doc.root q = some e) : lowerStr e.nameOf = e.nameOf := by
  have hq : q ∈ nodePaths doc := (mem_nodePaths q).2 (by rw [h]; rfl)
  have hx := List.all_eq_true.1 hn q hq
  simp only [h] at hx
  exact eq_of_beq hx

theorem all_contains_self (l : List String) : (l.all fun c => l.contains c) = true := by
  rw [List.all_eq_true]
  intro x hx
  exact List.elem_eq_true_of_mem hx

theorem inits_concat {α : Type} (l : List α) (a : α) :
    (l ++ [a]).inits = l.inits ++ [l ++ [a]] := by
  rw [List.inits_append]
  simp [List.inits]

theorem takeUntilId_cons (root : DNode) (q : List Nat) (rest : List (List Nat)) :
    takeUntilId root (q :: rest) =
      if hasIdAt root q then [q] else q :: takeUntilId root rest := rfl

theorem toSelectorSpec_nil (root : DNode) :
    toSelectorSpec root [] = [specSeg root []] := by
  unfold toSelectorSpec
  rw [show ([] : List Nat).inits = [[]] from rfl]
  rw [show ([[]] : List (List Nat)).reverse = [[]] from rfl]
  rw [takeUntilId_cons]
  cases hasIdAt root [] <;> simp [takeUntilId]

theorem toSelectorSpec_concat_id (root : DNode) (p : List Nat) (i : Nat)
    (h : hasIdAt root (p ++ [i]) = true) :
    toSelectorSpec root (p ++ [i]) = [specSeg root (p ++ [i])] := by
  unfold toSelectorSpec
  rw [inits_concat, List.reverse_append]
  simp only [List.reverse_cons, List.reverse_nil, List.nil_append, List.singleton_append]
  rw [takeUntilId_cons, h]
  simp

theorem toSelectorSpec_concat_noid (root : DNode) (p : List Nat) (i : Nat)
    (h : hasIdAt root (p ++ [i]) = false) :
    toSelectorSpec root (p ++ [i]) = toSelectorSpec root p ++ [specSeg root (p ++ [i])] := by
  unfold toSelectorSpec
  rw [inits_concat, List.reverse_append]
  simp only [List.reverse_cons, List.reverse_nil, List.nil_append, List.singleton_append]
  rw [takeUntilId_cons, h]
  simp

theorem selWalk_cons (root : DNode) (i : Nat) (rest : List Nat) (parts : List SelSeg) :
    selWalk root (i :: rest) parts =
      match nodeAt root (rest.reverse ++ [i]), nodeAt root rest.reverse with
      | some cur, some par =>
        if cur.idOf ≠ "" then SelSeg.idSeg cur.idOf :: parts
        else
          selWalk root rest (SelSeg.tagSeg (lowerStr cur.nameOf) cur.classesOf
            (if (par.echildren.filter fun c => c.nameOf == cur.nameOf).length > 1
             then some (countTag (par.echildren.take i) cur.nameOf + 1) else none) :: parts)
      | _, _ => parts := rfl

theorem selWalk_spec (root : DNode) : ∀ (rp : List Nat) (parts : List SelSeg),
    (nodeAt root rp.reverse).isSome = true →
    selWalk root rp parts = toSelectorSpec root rp.reverse ++ parts := by
  intro rp
  induction rp with
  | nil =>
    intro parts _
    rw [List.reverse_nil, toSelectorSpec_nil]
    show (if root.idOf ≠ "" then SelSeg.idSeg root.idOf
      else SelSeg.tagSeg (lowerStr root.nameOf) root.classesOf none) :: parts = _
    have hseg : specSeg root [] =
        (if root.idOf ≠ "" then SelSeg.idSeg root.idOf
         else SelSeg.tagSeg (lowerStr root.nameOf) root.classesOf none) := by
      unfold specSeg nthFor
      simp [nodeAt]
    rw [hseg]
    simp
  | cons i rest ih =>
    intro parts h
    rw [List.reverse_cons] at h
    obtain ⟨cur, hcur⟩ := Option.isSome_iff_exists.1 h
    have hpres : (nodeAt root rest.reverse).isSome = true :=
      isSome_prefix (show (nodeAt root (rest.reverse ++ [i])).isSome = true by rw [hcur]; rfl)
    obtain ⟨par, hpar⟩ := Option.isSome_iff_exists.1 hpres
    rw [List.reverse_cons, selWalk_cons, hcur, hpar]
    dsimp only
    by_cases hid : cur.idOf = ""
    · rw [if_neg (by simp [hid])]
      rw [ih _ hpres]
      have hnoid : hasIdAt root (rest.reverse ++ [i]) = false := by
        unfold hasIdAt
        rw [hcur]
        simp [hid]
      rw [toSelectorSpec_concat_noid root rest.reverse i hnoid]
      have hseg : specSeg root (rest.reverse ++ [i]) =
          SelSeg.tagSeg (lowerStr cur.nameOf) cur.classesOf
            (if (par.echildren.filter fun c => c.nameOf == cur.nameOf).length > 1
             then some (countTag (par.echildren.take i) cur.nameOf + 1) else none) := by
        unfold specSeg nthFor
        simp only [hcur, List.getLast?_concat, List.dropLast_concat, hpar]
        rw [if_neg (by simp [hid])]
      rw [hseg]
      simp
    · rw [if_pos hid]
      have hhas : hasIdAt root (rest.reverse ++ [i]) = true := by
        unfold hasIdAt
        rw [hcur]
        simp [hid]
      rw [toSelectorSpec_concat_id root rest.reverse i hhas]
      have hseg : specSeg root (rest.reverse ++ [i]) = SelSeg.idSeg cur.idOf := by
        unfold specSeg
        simp only [hcur]
        rw [if_pos hid]
      rw [hseg]
      simp

theorem toSelectorSegs_eq_spec (root : DNode) (p : List Nat)
    (hv : (nodeAt root p).isSome = true) :
    toSelectorSegs root p = toSelectorSpec root p := by
  have hx := selWalk_spec root p.reverse [] (by rw [List.reverse_reverse]; exact hv)
  rw [toSelectorSegs, hx, List.reverse_reverse, List.append_nil]

theorem inits_ne_nil {α : Type} (l : List α) : l.inits ≠ [] := by
  cases l <;> simp [List.inits]

theorem chainSegs_nil (root : DNode) (base : List Nat) :
    chainSegs root base [] = [] := rfl

theorem chainSegs_concat (root : DNode) (base s : List Nat) (i : Nat) :
    chainSegs root base (s ++ [i]) =
      chainSegs root base s ++ [specSeg root (base ++ (s ++ [i]))] := by
  unfold chainSegs
  rw [inits_concat, List.tail_append_of_ne_nil (inits_ne_nil s), List.map_append]
  rfl

theorem matchesSeg_id (root : DNode) (q : List Nat) (i : String) :
    matchesSeg root q (SelSeg.idSeg i) =
      match nodeAt root q with
      | none => false
      | some e => e.idOf == i := by
  unfold matchesSeg
  cases nodeAt root q <;> rfl

theorem matchesSeg_tag_concat {root par : DNode} {r : List Nat} (j : Nat)
    (hpar : nodeAt root r = some par) (t : String) (cls : List String) (nthOpt : Option Nat) :
    matchesSeg root (r ++ [j]) (SelSeg.tagSeg t cls nthOpt) =
      match par.echildren.get? j with
      | none => false
      | some e =>
        (lowerStr e.nameOf == t) && cls.all (fun c => e.classesOf.contains c) &&
          (match nthOpt with
           | none => true
           | some n => (countTag (par.echildren.take j) e.nameOf + 1) == n) := by
  unfold matchesSeg
  rw [show nodeAt root (r ++ [j]) = par.echildren.get? j by rw [nodeAt_concat, hpar]; rfl]
  cases hx : par.echildren.get? j with
  | none => rfl
  | some e =>
    cases nthOpt with
    | none => rfl
    | some n =>
      simp only [List.getLast?_concat, List.dropLast_concat, hpar]

theorem child_seg_iff {doc : Document} (hn : tagsNormalized doc = true)
    {r : List Nat} {par cur : DNode} {i : Nat}
    (hpar : nodeAt doc.root r = some par)
    (hcur : par.echildren.get? i = some cur)
    (hid : cur.idOf = "") (j : Nat) :
    (matchesSeg doc.root (r ++ [j]) (specSeg doc.root (r ++ [i])) = true) ↔ j = i := by
  have hcuri : nodeAt doc.root (r ++ [i]) = some cur := by
    rw [nodeAt_concat, hpar]; exact hcur
  have hnormc : lowerStr cur.nameOf = cur.nameOf := normAt hn hcuri
  have hspec : specSeg doc.root (r ++ [i]) =
      SelSeg.tagSeg (lowerStr cur.nameOf) cur.classesOf
        (if (par.echildren.filter fun c => c.nameOf == cur.nameOf).length > 1
         then some (countTag (par.echildren.take i) cur.nameOf + 1) else none) := by
    unfold specSeg nthFor
    simp only [hcuri, List.getLast?_concat, List.dropLast_concat, hpar]
    rw [if_neg (by simp [hid])]
  rw [hspec, matchesSeg_tag_concat j hpar]
  constructor
  · intro hm
    cases hgj : par.echildren.get? j with
    | none => rw [hgj] at hm; cases hm
    | some e =>
      rw [hgj] at hm
      have hmj : nodeAt doc.root (r ++ [j]) = some e := by
        rw [nodeAt_concat, hpar]; exact hgj
      have hnorme : lowerStr e.nameOf = e.nameOf := normAt hn hmj
      rw [Bool.and_eq_true, Bool.and_eq_true] at hm
      obtain ⟨⟨htag, _⟩, hm3⟩ := hm
      have hname : e.nameOf = cur.nameOf := by
        have hx := eq_of_beq htag
        rw [hnorme, hnormc] at hx
        exact hx
      have hpe : (fun c => c.nameOf == cur.nameOf) e = true := by simp [hname]
      have hpc : (fun c => c.nameOf == cur.nameOf) cur = true := by simp
      by_cases hgt : (par.echildren.filter fun c => c.nameOf == cur.nameOf).length > 1
      · rw [if_pos hgt] at hm3
        have hcnt := eq_of_beq hm3
        rw [hname] at hcnt
        unfold countTag at hcnt
        exact filtLen_index_inj (fun c => c.nameOf == cur.nameOf) par.echildren hgj hcur
          hpe hpc (by omega)
      · by_contra hne
        have h2 := filtLen_two (fun c => c.nameOf == cur.nameOf) par.echildren hne hgj hcur
          hpe hpc
        exact absurd h2 (by omega)
  · intro hji
    subst hji
    simp only [hcur]
    by_cases hgt : (par.echildren.filter fun c => c.nameOf == cur.nameOf).length > 1
    · rw [if_pos hgt]
      simp [all_contains_self]
    · rw [if_neg hgt]
      simp [all_contains_self]

theorem matchesRev_cons (root : DNode) (s : SelSeg) (ss : List SelSeg) (q : List Nat) :
    matchesRev root (s :: ss) q =
      (matchesSeg root q s &&
        (ss.isEmpty || (!q.isEmpty && matchesRev root ss q.dropLast))) := rfl

theorem chain_match_iff {doc : Document} (hu : uniqueIds doc) (hn : tagsNormalized doc = true)
    {base : List Nat} {anchor : DNode}
    (hanchor : nodeAt doc.root base = some anchor) (hid0 : anchor.idOf ≠ "") :
    ∀ (steps : List Nat),
      (nodeAt doc.root (base ++ steps)).isSome = true →
      (∀ t, t ≠ [] → t <+: steps → hasIdAt doc.root (base ++ t) = false) →
      ∀ q, (matchesRev doc.root
          ((chainSegs doc.root base steps).reverse ++ [SelSeg.idSeg anchor.idOf]) q = true)
        ↔ q = base ++ steps := by
  intro steps
  induction steps using List.reverseRecOn with
  | nil =>
    intro _ _ q
    rw [chainSegs_nil]
    simp only [List.reverse_nil, List.nil_append, List.append_nil]
    rw [matchesRev_cons]
    constructor
    · intro hm
      have hm' : matchesSeg doc.root q (SelSeg.idSeg anchor.idOf) = true := by
        simpa using hm
      rw [matchesSeg_id] at hm'
      cases hq : nodeAt doc.root q with
      | none => rw [hq] at hm'; cases hm'
      | some e =>
        rw [hq] at hm'
        have heid : e.idOf = anchor.idOf := eq_of_beq hm'
        exact nodeAt_id_unique hu hq hanchor heid (by rw [heid]; exact hid0)
    · intro hq
      subst hq
      rw [matchesSeg_id]
      simp [hanchor]
  | append_singleton s i ih =>
    intro hv hnoid q
    have hassoc : base ++ (s ++ [i]) = (base ++ s) ++ [i] := by
      rw [List.append_assoc]
    have hv' : (nodeAt doc.root ((base ++ s) ++ [i])).isSome = true := by
      rw [← hassoc]; exact hv
    have hvs : (nodeAt doc.root (base ++ s)).isSome = true := isSome_prefix hv'
    obtain ⟨par, hpar⟩ := Option.isSome_iff_exists.1 hvs
    have hbind : nodeAt doc.root ((base ++ s) ++ [i]) =
        par.echildren.get? i := by
      rw [nodeAt_concat, hpar]; rfl
    obtain ⟨cur, hcur0⟩ := Option.isSome_iff_exists.1 hv'
    have hcur : par.echildren.get? i = some cur := by rw [← hbind]; exact hcur0
    have hcuri : nodeAt doc.root (base ++ (s ++ [i])) = some cur := by
      rw [hassoc]; exact hcur0
    have hidc : cur.idOf = "" := by
      have h0 := hnoid (s ++ [i]) (by simp) (List.prefix_refl _)
      unfold hasIdAt at h0
      rw [hcuri] at h0
      simpa using h0
    have hsub : ∀ t, t ≠ [] → t <+: s → hasIdAt doc.root (base ++ t) = false := by
      intro t ht hp
      refine hnoid t ht (hp.trans ?_)
      rw [← List.concat_eq_append]
      exact List.prefix_concat i s
    have ihq := ih hvs hsub
    rw [chainSegs_concat, List.reverse_append]
    simp only [List.reverse_cons, List.reverse_nil, List.nil_append, List.singleton_append,
      List.cons_append]
    rw [matchesRev_cons]
    have hrest : ((chainSegs doc.root base s).reverse ++ [SelSeg.idSeg anchor.idOf]).isEmpty
        = false := by simp
    rw [hrest]
    simp only [Bool.false_or]
    constructor
    · intro hm
      rw [Bool.and_eq_true, Bool.and_eq_true] at hm
      obtain ⟨hseg, hne, hrec⟩ := hm
      have hqne : q ≠ [] := by
        cases q with
        | nil => simp at hne
        | cons a b => simp
      have hdrop : q.dropLast = base ++ s := (ihq q.dropLast).1 hrec
      have hsplit : q.dropLast ++ [q.getLast hqne] = q := List.dropLast_append_getLast hqne
      rw [← hsplit, hdrop] at hseg
      rw [hassoc] at hseg
      have hj := (child_seg_iff hn hpar hcur hidc (q.getLast hqne)).1 hseg
      rw [← hsplit, hdrop, hj, hassoc]
    · intro hq
      subst hq
      simp only [Bool.and_eq_true]
      refine ⟨?_, ?_, ?_⟩
      · rw [hassoc]
        exact (child_seg_iff hn hpar hcur hidc i).2 rfl
      · simp
      · rw [hassoc, List.dropLast_concat]
        exact (ihq (base ++ s)).2 rfl

theorem spec_decomposition (doc : Document) (p : List Nat)
    (hv : (nodeAt doc.root p).isSome = true) (ha : hasIdAncestor doc.root p = true) :
    ∃ base steps anchor, p = base ++ steps ∧ nodeAt doc.root base = some anchor ∧
      anchor.idOf ≠ "" ∧
      (∀ t, t ≠ [] → t <+: steps → hasIdAt doc.root (base ++ t) = false) ∧
      toSelectorSpec doc.root p =
        SelSeg.idSeg anchor.idOf :: chainSegs doc.root base steps := by
  induction p using List.reverseRecOn with
  | nil =>
    have hid : hasIdAt doc.root [] = true := by
      unfold hasIdAncestor at ha
      simpa [List.inits] using ha
    have hne : doc.root.idOf ≠ "" := by
      unfold hasIdAt at hid
      simpa [nodeAt] using hid
    refine ⟨[], [], doc.root, by simp, rfl, hne, ?_, ?_⟩
    · intro t ht hp
      exact absurd (List.prefix_nil.1 hp) ht
    · rw [toSelectorSpec_nil, chainSegs_nil]
      have : specSeg doc.root [] = SelSeg.idSeg doc.root.idOf := by
        unfold specSeg
        simp only [nodeAt]
        rw [if_pos hne]
      rw [this]
  | append_singleton p' i ih =>
    cases hid : hasIdAt doc.root (p' ++ [i]) with
    | true =>
      obtain ⟨cur, hcur⟩ := Option.isSome_iff_exists.1 hv
      have hne : cur.idOf ≠ "" := by
        unfold hasIdAt at hid
        rw [hcur] at hid
        simpa using hid
      refine ⟨p' ++ [i], [], cur, by simp, hcur, hne, ?_, ?_⟩
      · intro t ht hp
        exact absurd (List.prefix_nil.1 hp) ht
      · rw [toSelectorSpec_concat_id _ _ _ hid, chainSegs_nil]
        have : specSeg doc.root (p' ++ [i]) = SelSeg.idSeg cur.idOf := by
          unfold specSeg
          simp only [hcur]
          rw [if_pos hne]
        rw [this]
    | false =>
      have ha' : hasIdAncestor doc.root p' = true := by
        unfold hasIdAncestor at ha ⊢
        rw [inits_concat, List.any_append] at ha
        simp only [List.any_cons, List.any_nil, hid] at ha
        simpa using ha
      have hv' : (nodeAt doc.root p').isSome = true := isSome_prefix hv
      obtain ⟨base, steps, anchor, hps, hanch, hne, hnoid, hspec⟩ := ih hv' ha'
      refine ⟨base, steps ++ [i], anchor, by rw [hps, List.append_assoc], hanch, hne, ?_, ?_⟩
      · intro t ht hp
        rcases List.prefix_concat_iff.1 hp with hteq | hp'
        · subst hteq
          rw [← List.append_assoc, ← hps]
          exact hid
        · exact hnoid t ht hp'
      · rw [toSelectorSpec_concat_noid _ _ _ hid, hspec, chainSegs_concat]
        rw [hps, List.append_assoc]
        rfl

theorem roundtrip_matches (doc : Document) (hu : uniqueIds doc)
    (hn : tagsNormalized doc = true) (p : List Nat)
    (hv : (nodeAt doc.root p).isSome = true)
    (ha : hasIdAncestor doc.root p = true) (q : List Nat) :
    (cssMatches doc.root (toSelectorSegs doc.root p) q = true) ↔ q = p := by
  obtain ⟨base, steps, anchor, hps, hanch, hidne, hnoid, hspec⟩ :=
    spec_decomposition doc p hv ha
  rw [toSelectorSegs_eq_spec _ _ hv, hspec]
  unfold cssMatches
  simp only [List.isEmpty_cons, Bool.not_false, Bool.true_and, List.reverse_cons]
  have hvps : (nodeAt doc.root (base ++ steps)).isSome = true := by
    rw [← hps]; exact hv
  have hiff := chain_match_iff hu hn hanch hidne steps hvps hnoid q
  rw [← hps] at hiff
  exact hiff

theorem find?_of_unique {α : Type} (l : List α) (pred : α → Bool) (a : α)
    (ha : a ∈ l) (huniq : ∀ x, pred x = true ↔ x = a) : l.find? pred = some a := by
  induction l with
  | nil => cases ha
  | cons x t ih =>
    by_cases hx : x = a
    · subst hx
      rw [List.find?_cons_of_pos _ ((huniq x).2 rfl)]
    · have hpx : ¬ (pred x = true) := fun h => hx ((huniq x).1 h)
      rw [List.find?_cons_of_neg _ (by simpa using hpx)]
      have hat : a ∈ t := by
        rcases List.mem_cons.1 ha with h | h
        · exact absurd h.symm hx
        · exact h
      exact ih hat

theorem roundtrip_query (doc : Document) (hu : uniqueIds doc)
    (hn : tagsNormalized doc = true) (p : List Nat)
    (hv : (nodeAt doc.root p).isSome = true)
    (ha : hasIdAncestor doc.root p = true) :
    cssQuerySelector doc (toSelectorSegs doc.root p) = some p := by
  unfold cssQuerySelector
  exact find?_of_unique _ _ p ((mem_nodePaths p).2 hv)
    (roundtrip_matches doc hu hn p hv ha)

theorem unesc_esc_chars (l : List Char) : cssUnescapeChars (escapeChars l) = l := by
  induction l with
  | nil => rfl
  | cons c cs ih =>
    unfold escapeChars
    by_cases hc : plainIdentChar c = true
    · rw [if_pos hc]
      have hcb : ¬ (c = '\\') := by
        intro h
        rw [h] at hc
        exact absurd hc (by decide)
      unfold cssUnescapeChars
      rw [if_neg hcb, ih]
    · rw [if_neg hc]
      unfold cssUnescapeChars
      rw [if_pos rfl]
      show c :: cssUnescapeChars (escapeChars cs) = c :: cs
      rw [ih]

theorem cssUnescape_escapeIdent (s : String) : cssUnescape (escapeIdent s) = s := by
  cases s with
  | mk data =>
    unfold cssUnescape escapeIdent
    exact congrArg String.mk (unesc_esc_chars data)

theorem jsOrTimeout_ne (t : Option Int) : jsOrTimeout t ≠ 0 := by
  unfold jsOrTimeout
  cases t with
  | none => simp
  | some n =>
    show (if n ≠ 0 then n else 60000) ≠ 0
    by_cases hn : n = 0
    · rw [if_neg (by simp [hn])]
      simp
    · rw [if_pos hn]
      exact hn

theorem initSession_inv (env : PickerEnv) (t : Option Int) :
    InvP env t (initSession env t) := by
  constructor
  · intro _
    refine ⟨rfl, rfl, rfl, rfl, rfl, ?_, rfl, ?_⟩
    · show (if jsOrTimeout t ≠ 0 then some (jsOrTimeout t) else none) = some (jsOrTimeout t)
      rw [if_pos (jsOrTimeout_ne t)]
    · exact ⟨rfl, fun n => rfl⟩
  · intro hfalse
    cases hfalse

theorem outAfterRestore_env {env : PickerEnv} {t : Option Int} {s : Session}
    (h : InvP env t s) (hr : s.resolved = false) (n : NodeId) :
    outAfterRestore s n = env.outlines n := by
  obtain ⟨hu, -⟩ := h
  obtain ⟨-, -, -, -, -, -, -, hh⟩ := hu hr
  unfold outAfterRestore
  cases hhl : s.highlight with
  | none =>
    simp only [hhl] at hh
    show s.outlines n = env.outlines n
    exact hh.2 n
  | some h0 =>
    simp only [hhl] at hh
    obtain ⟨hprev, -, hrest⟩ := hh
    show Function.update s.outlines h0 (s.previousOutline.getD "") n = env.outlines n
    by_cases hn : n = h0
    · rw [hn, hprev, Function.update_same]
      rfl
    · rw [Function.update_noteq hn]
      exact hrest n hn

theorem highlight_inv {env : PickerEnv} {t : Option Int} {s : Session}
    (h : InvP env t s) (hr : s.resolved = false) (t' : NodeId) :
    InvP env t (highlightRun s t') := by
  have hres := outAfterRestore_env h hr
  obtain ⟨hu, -⟩ := h
  obtain ⟨hc0, hm, hcl, hcur, hoc, htm, hset, _⟩ := hu hr
  unfold highlightRun
  by_cases heq : s.highlight = some t'
  · rw [if_pos heq]
    exact ⟨hu, fun hx => absurd (hr ▸ hx) (by simp)⟩
  · rw [if_neg heq]
    constructor
    · intro _
      refine ⟨hc0, hm, hcl, hcur, hoc, htm, hset, ?_⟩
      refine ⟨by rw [hres t'], ?_, ?_⟩
      · show Function.update (outAfterRestore s) t' "3px solid #ff4444" t' = _
        rw [Function.update_same]
      · intro n hn
        show Function.update (outAfterRestore s) t' "3px solid #ff4444" n = _
        rw [Function.update_noteq hn]
        exact hres n
    · intro hx
      have hx' : s.resolved = true := hx
      rw [hr] at hx'
      cases hx'

theorem cleanup_tidy {env : PickerEnv} {t : Option Int} {s : Session}
    (h : InvP env t s) (hr : s.resolved = false) :
    (cleanupRun { s with resolved := true }).resolved = true ∧
    (cleanupRun { s with resolved := true }).cleanupCount = 1 ∧
    (cleanupRun { s with resolved := true }).mouseoverListener = false ∧
    (cleanupRun { s with resolved := true }).clickListener = false ∧
    (cleanupRun { s with resolved := true }).timer = none ∧
    (cleanupRun { s with resolved := true }).cursor = env.cursor ∧
    (cleanupRun { s with resolved := true }).originalCursor = env.cursor ∧
    ∀ n, (cleanupRun { s with resolved := true }).outlines n = env.outlines n := by
  have hres := outAfterRestore_env h hr
  obtain ⟨hu, -⟩ := h
  obtain ⟨hc0, -, -, -, hoc, -, -, -⟩ := hu hr
  refine ⟨rfl, ?_, rfl, rfl, rfl, ?_, ?_, ?_⟩
  · show s.cleanupCount + 1 = 1
    rw [hc0]
  · exact hoc
  · exact hoc
  · intro n
    show outAfterRestore { s with resolved := true } n = env.outlines n
    have : outAfterRestore { s with resolved := true } = outAfterRestore s := rfl
    rw [this]
    exact hres n

theorem terminal_inv {env : PickerEnv} {t : Option Int} {s : Session}
    (h : InvP env t s) (hr : s.resolved = false) :
    InvP env t { cleanupRun { s with resolved := true } with settled := some none } := by
  obtain ⟨-, hc2, hc3, hc4, hc5, hc6, hc7, hc8⟩ := cleanup_tidy h hr
  constructor
  · intro hx
    cases hx
  · intro _
    exact ⟨hc2, hc3, hc4, hc5, hc6, hc7, hc8⟩

theorem invP_congr {env : PickerEnv} {t : Option Int} {s s' : Session}
    (h : InvP env t s)
    (hres : s'.resolved = s.resolved) (hcc : s'.cleanupCount = s.cleanupCount)
    (hm : s'.mouseoverListener = s.mouseoverListener)
    (hcl : s'.clickListener = s.clickListener)
    (hcur : s'.cursor = s.cursor) (hoc : s'.originalCursor = s.originalCursor)
    (htm : s'.timer = s.timer) (hset : s'.settled = s.settled)
    (hhl : s'.highlight = s.highlight) (hpo : s'.previousOutline = s.previousOutline)
    (hout : s'.outlines = s.outlines) : InvP env t s' := by
  unfold InvP at h ⊢
  rw [hres, hcc, hm, hcl, hcur, hoc, htm, hset, hhl, hpo, hout]
  exact h

theorem stepEvent_hover (s : Session) (t' : NodeId) (b : Bool) :
    stepEvent s (.hover t' b) =
      (if s.mouseoverListener then
        if s.resolved then s else if b then highlightRun s t' else s
      else s) := rfl

theorem stepEvent_click (s : Session) (t' : NodeId) :
    stepEvent s (.click t') =
      (if s.clickListener then
        let s0 := { s with interceptedClicks := s.interceptedClicks + 1 }
        if s0.resolved then s0
        else
          let s1 := cleanupRun { s0 with resolved := true }
          { s1 with refErrors := s1.refErrors + 1 }
      else s) := rfl

theorem stepEvent_timer (s : Session) :
    stepEvent s .timerFire =
      (match s.timer with
       | none => s
       | some _ =>
         if s.resolved then s
         else { cleanupRun { s with resolved := true } with settled := some none }) := rfl

theorem stepEvent_blur (s : Session) :
    stepEvent s .blur =
      (if s.blurArmed then
        let s0 := { s with blurArmed := false }
        if s0.resolved then s0
        else { cleanupRun { s0 with resolved := true } with settled := some none }
      else s) := rfl

theorem stepEvent_cancel (s : Session) :
    stepEvent s .cancelHook =
      (if s.resolved then s
       else { cleanupRun { s with resolved := true } with settled := some none }) := rfl

theorem stepEvent_inv {env : PickerEnv} {t : Option Int} {s : Session}
    (h : InvP env t s) (e : PickerEvent) : InvP env t (stepEvent s e) := by
  cases e with
  | hover t' isHtml =>
    rw [stepEvent_hover]
    by_cases hm : s.mouseoverListener = true
    · rw [if_pos hm]
      by_cases hr : s.resolved = true
      · rw [if_pos hr]
        exact h
      · rw [if_neg hr]
        cases isHtml with
        | false => simpa using h
        | true =>
          have hr' : s.resolved = false := by simpa using hr
          simpa using highlight_inv h hr' t'
    · rw [if_neg hm]
      exact h
  | click t' =>
    rw [stepEvent_click]
    by_cases hcl : s.clickListener = true
    · rw [if_pos hcl]
      by_cases hr : s.resolved = true
      · rw [if_pos hr]
        exact invP_congr h rfl rfl rfl rfl rfl rfl rfl rfl rfl rfl rfl
      · have hr' : s.resolved = false := by simpa using hr
        rw [if_neg hr]
        have hbase : InvP env t ({ s with interceptedClicks := s.interceptedClicks + 1 }) :=
          invP_congr h rfl rfl rfl rfl rfl rfl rfl rfl rfl rfl rfl
        obtain ⟨-, hc2, hc3, hc4, hc5, hc6, hc7, hc8⟩ := cleanup_tidy hbase hr'
        exact ⟨fun hx => (nomatch hx), fun _ => ⟨hc2, hc3, hc4, hc5, hc6, hc7, hc8⟩⟩
    · rw [if_neg hcl]
      exact h
  | timerFire =>
    rw [stepEvent_timer]
    cases htm : s.timer with
    | none => exact h
    | some d =>
      by_cases hr : s.resolved = true
      · rw [if_pos hr]
        exact h
      · rw [if_neg hr]
        exact terminal_inv h (by simpa using hr)
  | blur =>
    rw [stepEvent_blur]
    by_cases hb : s.blurArmed = true
    · rw [if_pos hb]
      by_cases hr : s.resolved = true
      · rw [if_pos hr]
        exact invP_congr h rfl rfl rfl rfl rfl rfl rfl rfl rfl rfl rfl
      · have hr' : s.resolved = false := by simpa using hr
        rw [if_neg hr]
        have hbase : InvP env t ({ s with blurArmed := false }) :=
          invP_congr h rfl rfl rfl rfl rfl rfl rfl rfl rfl rfl rfl
        obtain ⟨-, hc2, hc3, hc4, hc5, hc6, hc7, hc8⟩ := cleanup_tidy hbase hr'
        exact ⟨fun hx => (nomatch hx), fun _ => ⟨hc2, hc3, hc4, hc5, hc6, hc7, hc8⟩⟩
    · rw [if_neg hb]
      exact h
  | cancelHook =>
    rw [stepEvent_cancel]
    by_cases hr : s.resolved = true
    · rw [if_pos hr]
      exact h
    · rw [if_neg hr]
      exact terminal_inv h (by simpa using hr)

theorem runPicker_inv (env : PickerEnv) (t : Option Int) (events : List PickerEvent) :
    InvP env t (runPicker env t events) := by
  unfold runPicker
  have hstep : ∀ (es : List PickerEvent) (s : Session), InvP env t s →
      InvP env t (es.foldl stepEvent s) := by
    intro es
    induction es with
    | nil => intro s hs; exact hs
    | cons e rest ih =>
      intro s hs
      exact ih _ (stepEvent_inv hs e)
  exact hstep events _ (initSession_inv env t)

/-- Claim C4: on every terminal transition of a picker session
(Resolved via click, TimedOut via the timer, Cancelled via window blur
or via the host-exposed cancel hook), cleanup executes exactly once -
the resolved flag prevents any pair of handlers from both running it -
and it removes both document listeners, restores the highlighted node's
original outline, restores the original cursor, and clears the pending
timer.  Stated over every event sequence: once the session is resolved,
the cleanup count is one and all mutated page state is restored. -/
theorem picker_cleanup_once (env : PickerEnv) (t : Option Int)
    (events : List PickerEvent) (n : NodeId)
    (hr : (runPicker env t events).resolved = true) :
    (runPicker env t events).cleanupCount = 1 ∧
    (runPicker env t events).mouseoverListener = false ∧
    (runPicker env t events).clickListener = false ∧
    (runPicker env t events).timer = none ∧
    (runPicker env t events).cursor = env.cursor ∧
    (runPicker env t events).outlines n = env.outlines n := by
  obtain ⟨-, hres⟩ := runPicker_inv env t events
  obtain ⟨h1, h2, h3, h4, h5, -, h7⟩ := hres hr
  exact ⟨h1, h2, h3, h4, h5, h7 n⟩

theorem picker_cleanup_once_witness :
    (runPicker envPick (some 60000)
      [PickerEvent.hover 7 true, PickerEvent.click 7]).resolved = true ∧
    (runPicker envPick (some 60000)
      [PickerEvent.hover 7 true, PickerEvent.click 7]).cleanupCount = 1 ∧
    (runPicker envPick (some 60000)
      [PickerEvent.hover 7 true, PickerEvent.click 7]).outlines 7 = envPick.outlines 7 :=
  ⟨by decide,
   (picker_cleanup_once envPick (some 60000)
     [PickerEvent.hover 7 true, PickerEvent.click 7] 7 (by decide)).1,
   (picker_cleanup_once envPick (some 60000)
     [PickerEvent.hover 7 true, PickerEvent.click 7] 7 (by decide)).2.2.2.2.2⟩

/-- Claim C1 (code bug): a pick session in which the user hovers node 7
and clicks it before the timer fires.  The click is intercepted, the
session is marked resolved exactly once (a later click or timer firing
is a no-op), and cleanup runs once (outline and cursor restored) - but
the click handler then evaluates `resolve(resolveSelection(event.target))`
where `resolve` is bound only inside the Promise executor; the callee
reference is dereferenced before the argument is evaluated, so the call
raises a ReferenceError before `resolveSelection` runs: the clicked
node is never stashed in the handoff slot (`stash = none`) and the
in-page promise NEVER settles (`settled = none`); the host therefore
never receives the descriptor the claim promises. -/
theorem picker_click_never_settles :
    (runPicker envPick (some 60000)
      [PickerEvent.hover 7 true, PickerEvent.click 7, PickerEvent.click 9,
       PickerEvent.timerFire]).resolved = true ∧
    (runPicker envPick (some 60000)
      [PickerEvent.hover 7 true, PickerEvent.click 7, PickerEvent.click 9,
       PickerEvent.timerFire]).cleanupCount = 1 ∧
    (runPicker envPick (some 60000)
      [PickerEvent.hover 7 true, PickerEvent.click 7, PickerEvent.click 9,
       PickerEvent.timerFire]).interceptedClicks = 1 ∧
    (runPicker envPick (some 60000)
      [PickerEvent.hover 7 true, PickerEvent.click 7, PickerEvent.click 9,
       PickerEvent.timerFire]).stash = none ∧
    (runPicker envPick (some 60000)
      [PickerEvent.hover 7 true, PickerEvent.click 7, PickerEvent.click 9,
       PickerEvent.timerFire]).refErrors = 1 ∧
    (runPicker envPick (some 60000)
      [PickerEvent.hover 7 true, PickerEvent.click 7, PickerEvent.click 9,
       PickerEvent.timerFire]).settled = none ∧
    (runPicker envPick (some 60000)
      [PickerEvent.hover 7 true, PickerEvent.click 7, PickerEvent.click 9,
       PickerEvent.timerFire]).outlines 7 = "1px solid blue" ∧
    (runPicker envPick (some 60000)
      [PickerEvent.hover 7 true, PickerEvent.click 7, PickerEvent.click 9,
       PickerEvent.timerFire]).cursor = "auto" := by
  decide

/-- Claim C3 (counterexample): a timeout of 0 does NOT disable the
in-page timer: the host call site passes `timeoutMs || 60000`, so the
session starts with a 60 000 ms timer armed. -/
theorem picker_timeout_zero_armed :
    (initSession envPick (some 0)).timer = some 60000 ∧
    ¬ ((initSession envPick (some 0)).timer = none) := by
  decide

theorem timer_fires {s : Session} {d : Int} (htm : s.timer = some d)
    (hr : s.resolved = false) :
    stepEvent s PickerEvent.timerFire =
      { cleanupRun { s with resolved := true } with settled := some none } := by
  rw [stepEvent_timer, htm, if_neg (by simp [hr])]

/-- Claim C3 (amended): the in-page timer delay defaults to 60 000 ms,
and a timeout of 0 or an absent timeout likewise falls back to
60 000 ms - the in-page timer is ALWAYS armed (the disable branch is
unreachable because the host passes `timeoutMs || 60000`).  Whenever
the timer fires before any click, the session runs the same cleanup as
the Resolved path exactly once and the promise settles with null, which
the host reports as NotFound ("No element selected."). -/
theorem picker_timer_amended (env : PickerEnv) (t : Option Int)
    (events : List PickerEvent) (n : NodeId) (page : PageModel) (j : Bool)
    (hr : (runPicker env t events).resolved = false) :
    (initSession env t).timer = some (jsOrTimeout t) ∧
    jsOrTimeout none = 60000 ∧ jsOrTimeout (some 0) = 60000 ∧
    (runPicker env t events).timer = some (jsOrTimeout t) ∧
    (stepEvent (runPicker env t events) PickerEvent.timerFire).settled = some none ∧
    (stepEvent (runPicker env t events) PickerEvent.timerFire).cleanupCount = 1 ∧
    (stepEvent (runPicker env t events) PickerEvent.timerFire).mouseoverListener = false ∧
    (stepEvent (runPicker env t events) PickerEvent.timerFire).clickListener = false ∧
    (stepEvent (runPicker env t events) PickerEvent.timerFire).timer = none ∧
    (stepEvent (runPicker env t events) PickerEvent.timerFire).cursor = env.cursor ∧
    (stepEvent (runPicker env t events) PickerEvent.timerFire).outlines n = env.outlines n ∧
    elementMain page none none none false false j =
      (failOut "No element selected." j, []) := by
  have hinv := runPicker_inv env t events
  obtain ⟨hun, -⟩ := runPicker_inv env t events
  obtain ⟨-, -, -, -, -, htm, -, -⟩ := hun hr
  have hstep := timer_fires htm hr
  obtain ⟨-, hc2, hc3, hc4, hc5, hc6, -, hc8⟩ := cleanup_tidy hinv hr
  refine ⟨?_, by decide, by decide, htm, ?_, ?_, ?_, ?_, ?_, ?_, ?_, rfl⟩
  · show (if jsOrTimeout t ≠ 0 then some (jsOrTimeout t) else none) = some (jsOrTimeout t)
    rw [if_pos (jsOrTimeout_ne t)]
  · rw [hstep]
  · rw [hstep]; exact hc2
  · rw [hstep]; exact hc3
  · rw [hstep]; exact hc4
  · rw [hstep]; exact hc5
  · rw [hstep]; exact hc6
  · rw [hstep]; exact hc8 n

theorem picker_timer_amended_witness :
    (runPicker envPick (some 0) [PickerEvent.hover 7 true]).resolved = false ∧
    (stepEvent (runPicker envPick (some 0) [PickerEvent.hover 7 true])
      PickerEvent.timerFire).settled = some none ∧
    (stepEvent (runPicker envPick (some 0) [PickerEvent.hover 7 true])
      PickerEvent.timerFire).outlines 7 = envPick.outlines 7 :=
  ⟨by decide,
   (picker_timer_amended envPick (some 0) [PickerEvent.hover 7 true] 7 pageScroll true
     (by decide)).2.2.2.2.1,
   (picker_timer_amended envPick (some 0) [PickerEvent.hover 7 true] 7 pageScroll true
     (by decide)).2.2.2.2.2.2.2.2.2.2.1⟩

/-- Claim C10: the host side of pickElement never throws on an empty
handoff slot: when the in-page pick settles with null, the host does
not attempt handoff retrieval and reports no selection; when it settles
with a result but the retrieved handle is not an element node, the
handle is disposed and the result is no selection - in both cases the
caller sees NotFound, never an error. -/
theorem pick_handoff_safe (page : PageModel) (settledVal : Option String)
    (slot : Option (List Nat)) :
    (settledVal = none →
      (pickElementHost page settledVal slot).retrievalAttempted = false ∧
      (pickElementHost page settledVal slot).result = none) ∧
    (∀ sel, settledVal = some sel → slot = none →
      (pickElementHost page settledVal slot).handleDisposed = true ∧
      (pickElementHost page settledVal slot).slotCleared = true ∧
      (pickElementHost page settledVal slot).result = none) := by
  constructor
  · intro h
    subst h
    exact ⟨rfl, rfl⟩
  · intro sel hs hslot
    subst hs
    subst hslot
    exact ⟨rfl, rfl, rfl⟩

theorem pick_handoff_safe_witness :
    (pickElementHost pageScroll none none).retrievalAttempted = false ∧
    (pickElementHost pageScroll (some "#x") none).handleDisposed = true :=
  ⟨((pick_handoff_safe pageScroll none none).1 rfl).1,
   ((pick_handoff_safe pageScroll (some "#x") none).2 "#x" rfl rfl).1⟩

/-- Claim C6: selector synthesis is exactly the specified algorithm -
walk from the node toward the root; at the first node with a non-empty
id emit the id anchor and stop ascending; every other chain node
contributes the lower-cased tag name with its classes dot-joined plus a
1-based nth-of-type ordinal exactly when the parent has more than one
same-tag element child; segments are listed in root-to-node order and
rendered joined with the child combinator.  `toSelectorSpec` is the
transcription of that description; the loop agrees with it on every
valid path. -/
theorem toSelector_algorithm (root : DNode) (p : List Nat)
    (hv : (nodeAt root p).isSome = true) :
    toSelectorSegs root p = toSelectorSpec root p ∧
    toSelector root p =
      String.intercalate " > " ((toSelectorSpec root p).map renderSeg) := by
  have h := toSelectorSegs_eq_spec root p hv
  exact ⟨h, by rw [toSelector, h]⟩

theorem toSelector_algorithm_witness :
    (nodeAt docNested.root [0, 1]).isSome = true ∧
    toSelectorSegs docNested.root [0, 1] = toSelectorSpec docNested.root [0, 1] ∧
    toSelector docNested.root [0, 1] = "#top > div.a > span.b:nth-of-type(2)" :=
  ⟨by decide, (toSelector_algorithm docNested.root [0, 1] (by decide)).1, by decide⟩

/-- Claim C5 (counterexample): in a document with two elements sharing
the id `x`, the node at path 1 is reachable from an id-bearing ancestor
(itself), yet its synthesized selector `#x` also matches the node at
path 0, and querySelector resolves it to that FIRST node - not to the
node it was synthesized from.  The round-trip claim fails without an
id-uniqueness hypothesis. -/
theorem selector_roundtrip_cex :
    toSelectorSegs docDupIds.root [1] = [SelSeg.idSeg "x"] ∧
    hasIdAncestor docDupIds.root [1] = true ∧
    (nodeAt docDupIds.root [1]).isSome = true ∧
    cssMatches docDupIds.root (toSelectorSegs docDupIds.root [1]) [0] = true ∧
    cssQuerySelector docDupIds (toSelectorSegs docDupIds.root [1]) = some [0] ∧
    ¬ (([0] : List Nat) = [1]) := by
  decide

/-- Claim C5 (amended): in every document whose non-empty ids are
unique (with tag names case-normalized, the modelling convention for
CSS type matching), every node reachable from an id-bearing ancestor
round-trips: the synthesized selector matches exactly that node, a
standard querySelector returns it, and the fallback identifier escaping
is lossless (unescaping the escaped identifier recovers the original),
with the rendered selector string being the segments joined by the
child combinator. -/
theorem selector_roundtrip (doc : Document) (p : List Nat)
    (hu : uniqueIds doc) (hn : tagsNormalized doc = true)
    (hv : (nodeAt doc.root p).isSome = true)
    (ha : hasIdAncestor doc.root p = true) :
    (∀ q, (cssMatches doc.root (toSelectorSegs doc.root p) q = true) ↔ q = p) ∧
    cssQuerySelector doc (toSelectorSegs doc.root p) = some p ∧
    (∀ s, cssUnescape (escapeIdent s) = s) ∧
    toSelector doc.root p =
      String.intercalate " > " ((toSelectorSegs doc.root p).map renderSeg) :=
  ⟨roundtrip_matches doc hu hn p hv ha, roundtrip_query doc hu hn p hv ha,
   cssUnescape_escapeIdent, rfl⟩

theorem selector_roundtrip_witness :
    uniqueIds docNested ∧ tagsNormalized docNested = true ∧
    (nodeAt docNested.root [0, 1]).isSome = true ∧
    hasIdAncestor docNested.root [0, 1] = true ∧
    cssQuerySelector docNested (toSelectorSegs docNested.root [0, 1]) = some [0, 1] :=
  ⟨by decide, by decide, by decide, by decide,
   (selector_roundtrip docNested [0, 1] (by decide) (by decide) (by decide)
     (by decide)).2.1⟩

theorem find?_eq_head_filter {α : Type} (l : List α) (p : α → Bool) :
    l.find? p = (l.filter p).head? := by
  induction l with
  | nil => rfl
  | cons x t ih =>
    by_cases hx : p x = true
    · rw [List.find?_cons_of_pos _ hx, List.filter_cons_of_pos hx]
      rfl
    · rw [List.find?_cons_of_neg _ (by simpa using hx),
        List.filter_cons_of_neg (by simpa using hx)]
      exact ih

/-- Claim C7 (counterexample): the code matches only the FIRST direct
text-node child of each element, not its whole text content.  In the
document `<div>a<b>x</b>Submit please</div>` the root's text content
contains `Submit`, so the claimed semantics finds the root, but the
XPath-based resolver finds nothing.  And a query containing a double
quote breaks the XPath string literal, so the resolver fails instead of
returning NotFound. -/
theorem findByText_cex :
    findByText docSplitText "Submit" = Except.ok (none, []) ∧
    findByTextClaim docSplitText "Submit" = some [] ∧
    textContent docSplitText [] = "axSubmit please" ∧
    containsSub (normalizeSpace (textContent docSplitText [])) "Submit" = true ∧
    findByText docSplitText "a\"b" = Except.error "Invalid XPath expression" ∧
    findByTextClaim docSplitText "a\"b" = none := by
  decide

/-- Claim C7 (amended): for every text query without a double quote,
resolution is a case-sensitive substring match of the query against the
normalize-space of each element's FIRST direct text-node child (the
XPath string coercion of `text()`), over every element in document
order: the first match is returned, exactly the remaining matches are
disposed, and zero matches yield NotFound.  A query containing a double
quote is interpolated into the XPath literal without a valid escape and
resolution fails instead. -/
theorem findByText_amended (doc : Document) (q : String)
    (hq : hasDoubleQuote q = false) :
    findByText doc q =
      Except.ok ((nodePaths doc).find? (findByTextPred doc q),
        ((nodePaths doc).filter (findByTextPred doc q)).tail) := by
  unfold findByText
  rw [if_neg (by simp [hq])]
  rw [find?_eq_head_filter]
  cases hh : (nodePaths doc).filter (findByTextPred doc q) with
  | nil => rfl
  | cons a rest => rfl

theorem findByText_amended_witness :
    hasDoubleQuote "Submit" = false ∧
    findByText docTwoSubmit "Submit" = Except.ok (some [0], [[1]]) :=
  ⟨by decide, (findByText_amended docTwoSubmit "Submit" (by decide)).trans (by decide)⟩

theorem collectInfo_some {page : PageModel} {p : List Nat} {el : DNode}
    (hv : nodeAt page.doc.root p = some el) (hint : Option String) (sc : Bool) :
    collectElementInfo page p hint sc = some
      { selector := hint.getD (toSelector page.doc.root p)
        tag := lowerStr el.nameOf
        id := if el.idOf ≠ "" then some el.idOf else none
        classes := el.classesOf
        text := take160 (jsTrim (textContent page.doc p))
        attributes := el.dataOf.attrs
        rect := if sc then page.rectAfterScroll p else el.dataOf.rect
        visible := el.dataOf.hasOffsetParent
        children := el.echildren.length } := by
  unfold collectElementInfo
  rw [hv]

theorem resolveElementM_selector (page : PageModel) {sel : String} (hsel : ¬ (sel = ""))
    (textSearch : Option String) (pickRes : Option (List Nat × String)) :
    resolveElementM page (some sel) textSearch pickRes =
      (match page.query sel with
       | none => Except.ok none
       | some p =>
         match collectElementInfo page p (some sel) false with
         | some info => Except.ok (some (p, info))
         | none => Except.error "invalid handle") := by
  unfold resolveElementM
  rw [if_pos (show truthyStr (some sel) = true by simp [truthyStr, hsel])]
  rfl

/-- Claim C2 (counterexample): on a page whose element reports the
rectangle (5, 6, 3, 4) after scrolling and (1, 2, 3, 4) before, an
invocation with both scroll and click intents returns the PRE-scroll
rectangle: the descriptor is captured during resolution, before the
scroll is applied (the capture event precedes the scroll event in the
invocation log), contradicting the claimed scroll-then-click-then-
capture order and the claimed post-scroll rect. -/
theorem scroll_rect_cex :
    (elementMain pageScroll (some "#el") none none true true true).1 =
      MainOut.success
        { selector := "#el", tag := "div", id := some "el", classes := []
          text := "", attributes := [], rect := ⟨1, 2, 3, 4⟩, visible := true
          children := 0 } ∧
    (elementMain pageScroll (some "#el") none none true true true).2 =
      [FlowEvent.capture, FlowEvent.scrollIntoView, FlowEvent.clickElem,
       FlowEvent.emit] ∧
    pageScroll.rectAfterScroll [] = ⟨5, 6, 3, 4⟩ ∧
    ¬ ((⟨1, 2, 3, 4⟩ : Rect) = pageScroll.rectAfterScroll []) := by
  decide

/-- Claim C2 (amended): for every request with both intents on a
resolved element, scroll is applied before click, but the descriptor is
captured during resolution BEFORE either intent is applied - the
invocation log is capture, scroll, click, emit - so the returned rect
is the element's pre-scroll rectangle, not the post-scroll one. -/
theorem scroll_click_order (page : PageModel) (sel : String) (p : List Nat) (el : DNode)
    (hsel : ¬ (sel = "")) (hq : page.query sel = some p)
    (hv : nodeAt page.doc.root p = some el) (hclick : page.clickError = none) :
    (elementMain page (some sel) none none true true true).2 =
      [FlowEvent.capture, FlowEvent.scrollIntoView, FlowEvent.clickElem,
       FlowEvent.emit] ∧
    ∃ d, (elementMain page (some sel) none none true true true).1 =
      MainOut.success d ∧ d.rect = el.dataOf.rect ∧ d.selector = sel := by
  have hres : resolveElementM page (some sel) none none =
      Except.ok (some (p,
        { selector := sel, tag := lowerStr el.nameOf
          id := if el.idOf ≠ "" then some el.idOf else none
          classes := el.classesOf
          text := take160 (jsTrim (textContent page.doc p))
          attributes := el.dataOf.attrs
          rect := el.dataOf.rect
          visible := el.dataOf.hasOffsetParent
          children := el.echildren.length })) := by
    rw [resolveElementM_selector page hsel none none, hq]
    show (match collectElementInfo page p (some sel) false with
      | some info => Except.ok (some (p, info))
      | none => Except.error "invalid handle") = _
    rw [collectInfo_some hv (some sel) false]
    rfl
  have hmain : elementMain page (some sel) none none true true true =
      (MainOut.success
        { selector := sel, tag := lowerStr el.nameOf
          id := if el.idOf ≠ "" then some el.idOf else none
          classes := el.classesOf
          text := take160 (jsTrim (textContent page.doc p))
          attributes := el.dataOf.attrs
          rect := el.dataOf.rect
          visible := el.dataOf.hasOffsetParent
          children := el.echildren.length },
       [FlowEvent.capture, FlowEvent.scrollIntoView, FlowEvent.clickElem,
        FlowEvent.emit]) := by
    unfold elementMain
    rw [hres, hclick]
    rfl
  rw [hmain]
  exact ⟨rfl, ⟨_, rfl, rfl, rfl⟩⟩

theorem scroll_click_order_witness :
    pageScroll.query "#el" = some [] ∧
    (elementMain pageScroll (some "#el") none none true true true).2 =
      [FlowEvent.capture, FlowEvent.scrollIntoView, FlowEvent.clickElem,
       FlowEvent.emit] :=
  ⟨by decide,
   (scroll_click_order pageScroll "#el" []
     (DNode.elem ⟨"div", "el", [], [], ⟨1, 2, 3, 4⟩, true⟩ [])
     (by decide) (by decide) rfl rfl).1⟩

/-- Claim C8: for every request carrying a non-empty selector, the
returned descriptor echoes the input selector verbatim (synthesis is
skipped); and when the CSS query matches zero elements the invocation
fails with the message `Selector not found: <selector>`, exit code 1,
and - in JSON mode - the machine-readable payload
`{ ok: false, error: "Selector not found: <selector>" }` (in human
mode the same message goes to stderr, with the same exit code). -/
theorem direct_selector (page : PageModel) (sel : String) (j : Bool)
    (hsel : ¬ (sel = "")) :
    (page.query sel = none →
      elementMain page (some sel) none none false false j =
        (MainOut.failure ("Selector not found: " ++ sel) 1
          (if j then some ⟨false, "Selector not found: " ++ sel⟩ else none), [])) ∧
    (∀ p el, page.query sel = some p → nodeAt page.doc.root p = some el →
      ∃ d, (elementMain page (some sel) none none false false j).1 =
        MainOut.success d ∧ d.selector = sel) := by
  constructor
  · intro hq
    unfold elementMain
    rw [resolveElementM_selector page hsel none none, hq]
    show (failOut (if truthyStr (some sel) then "Selector not found: " ++ sel
      else if truthyStr none then "No element found containing text: " ++ (none : Option String).getD ""
      else "No element selected.") j, ([] : List FlowEvent)) = _
    rw [if_pos (show truthyStr (some sel) = true by simp [truthyStr, hsel])]
    rfl
  · intro p el hq hv
    have hres : resolveElementM page (some sel) none none =
        Except.ok (some (p,
          { selector := sel, tag := lowerStr el.nameOf
            id := if el.idOf ≠ "" then some el.idOf else none
            classes := el.classesOf
            text := take160 (jsTrim (textContent page.doc p))
            attributes := el.dataOf.attrs
            rect := el.dataOf.rect
            visible := el.dataOf.hasOffsetParent
            children := el.echildren.length })) := by
      rw [resolveElementM_selector page hsel none none, hq]
      show (match collectElementInfo page p (some sel) false with
        | some info => Except.ok (some (p, info))
        | none => Except.error "invalid handle") = _
      rw [collectInfo_some hv (some sel) false]
      rfl
    have hmain : elementMain page (some sel) none none false false j =
        (MainOut.success
          { selector := sel, tag := lowerStr el.nameOf
            id := if el.idOf ≠ "" then some el.idOf else none
            classes := el.classesOf
            text := take160 (jsTrim (textContent page.doc p))
            attributes := el.dataOf.attrs
            rect := el.dataOf.rect
            visible := el.dataOf.hasOffsetParent
            children := el.echildren.length },
         [FlowEvent.capture, FlowEvent.emit]) := by
      unfold elementMain
      rw [hres]
      rfl
    rw [hmain]
    exact ⟨_, rfl, rfl⟩

theorem direct_selector_witness :
    pageScroll.query "#nope" = none ∧
    elementMain pageScroll (some "#nope") none none false false true =
      (MainOut.failure "Selector not found: #nope" 1
        (some ⟨false, "Selector not found: #nope"⟩), []) ∧
    pageScroll.query "#el" = some [] :=
  ⟨by decide,
   ((direct_selector pageScroll "#nope" true (by decide)).1 (by decide)).trans (by decide),
   by decide⟩

/-- Claim C9 (counterexample): host and port do NOT always default to
localhost and 9222 when the flags are absent: the BROWSER_PORT and
BROWSER_HOST environment variables take precedence over the defaults,
so with no port flag and BROWSER_PORT set to 8080 the resolved port is
8080, and with no host flag and BROWSER_HOST set the resolved host is
not localhost. -/
theorem conn_resolver_cex :
    resolveBrowserConnection ⟨none, none, NumInput.undef⟩ ⟨none, none, some "8080"⟩ =
      ConnOptions.url "localhost" (JsNum.fin 8080) ∧
    ¬ (resolveBrowserConnection ⟨none, none, NumInput.undef⟩ ⟨none, none, some "8080"⟩ =
      ConnOptions.url "localhost" (JsNum.fin 9222)) ∧
    resolveBrowserConnection ⟨none, none, NumInput.undef⟩ ⟨none, some "remote", none⟩ =
      ConnOptions.url "remote" (JsNum.fin 9222) := by
  decide

/-- Claim C9 (amended): the connection resolver is a total function
with no failure path.  When an endpoint is present (a truthy ws flag or
a truthy BROWSER_WS_URL), the endpoint branch wins - the result is the
nullish coalescing `flags.ws ?? BROWSER_WS_URL` - and the host and port
inputs are ignored.  Otherwise host falls back to localhost and port to
9222 whenever neither the port flag nor BROWSER_PORT supplies a finite
number: an absent port with no environment port, a non-numeric port
string, and a NaN port flag all resolve to 9222 without error. -/
theorem conn_resolver_amended (flags : ConnFlags) (env : EnvVars) :
    ((truthyStr flags.ws || truthyStr env.wsUrl) = true →
      resolveBrowserConnection flags env =
        ConnOptions.endpoint ((jsNullishStr flags.ws env.wsUrl).getD "") ∧
      ∀ h2 p2, resolveBrowserConnection flags env =
        resolveBrowserConnection ⟨flags.ws, h2, p2⟩ env) ∧
    (flags.ws = none → env.wsUrl = none → flags.host = none → env.browserHost = none →
      flags.port = NumInput.undef → env.browserPort = none →
      resolveBrowserConnection flags env = ConnOptions.url "localhost" (JsNum.fin 9222)) ∧
    (∀ s, flags.ws = none → env.wsUrl = none → flags.port = NumInput.str s →
      (jsNumberOfString s).isFinite = false →
      resolveBrowserConnection flags env =
        ConnOptions.url ((jsNullishStr flags.host env.browserHost).getD "localhost")
          (JsNum.fin 9222)) ∧
    (flags.ws = none → env.wsUrl = none → flags.port = NumInput.num JsNum.nan →
      resolveBrowserConnection flags env =
        ConnOptions.url ((jsNullishStr flags.host env.browserHost).getD "localhost")
          (JsNum.fin 9222)) := by
  obtain ⟨fws, fhost, fport⟩ := flags
  obtain ⟨ews, ehost, eport⟩ := env
  refine ⟨?_, ?_, ?_, ?_⟩
  · intro hg
    constructor
    · unfold resolveBrowserConnection
      rw [if_pos hg]
    · intro h2 p2
      unfold resolveBrowserConnection
      rw [if_pos hg, if_pos hg]
  · intro h1 h2 h3 h4 h5 h6
    simp only at h1 h2 h3 h4 h5 h6
    subst h1; subst h2; subst h3; subst h4; subst h5; subst h6
    rfl
  · intro s h1 h2 h5 hfin
    simp only at h1 h2 h5
    subst h1; subst h2; subst h5
    unfold resolveBrowserConnection
    rw [if_neg (by simp [truthyStr])]
    show ConnOptions.url ((jsNullishStr fhost ehost).getD "localhost")
      (if (jsNumberOfString s).isFinite = true then jsNumberOfString s
       else JsNum.fin 9222) = _
    rw [if_neg (by simp [hfin])]
  · intro h1 h2 h5
    simp only at h1 h2 h5
    subst h1; subst h2; subst h5
    rfl

theorem conn_resolver_amended_witness :
    (truthyStr (some "ws://x") || truthyStr none) = true ∧
    resolveBrowserConnection ⟨some "ws://x", some "h", NumInput.num (JsNum.fin 1)⟩
      ⟨none, none, none⟩ = ConnOptions.endpoint "ws://x" ∧
    resolveBrowserConnection ⟨none, none, NumInput.undef⟩ ⟨none, none, none⟩ =
      ConnOptions.url "localhost" (JsNum.fin 9222) :=
  ⟨by decide,
   ((conn_resolver_amended ⟨some "ws://x", some "h", NumInput.num (JsNum.fin 1)⟩
     ⟨none, none, none⟩).1 (by decide)).1.trans (by decide),
   (conn_resolver_amended ⟨none, none, NumInput.undef⟩ ⟨none, none, none⟩).2.1
     rfl rfl rfl rfl rfl rfl⟩
